import Mathlib

/-!
Verification of the `wsframe` single-header WebSocket frame codec
(`src/include/wsframe/wsframe.hpp`) against its specification.

Modelling conventions:
* Bytes are `Nat`. Every store into the `std::uint8_t` buffer truncates with
  `% 256`, mirroring the C++ narrowing conversion at that exact point.
* `std::vector<std::uint8_t> m_buf` of `FrameBuffer` is a `List Nat` plus the
  write cursor `m_ptr`; `capacity()` is `m_buf.size()`, i.e. the list length.
  `std::vector::resize` keeps the prefix and value-initializes (zero-fills)
  the new tail.
* `std::string_view` payloads/views are `List Nat` byte lists.
* The pseudo random generator is seeded from OS entropy (`std::random_device`),
  so the masking key drawn from `FrameFactory`'s `RandomCache` is modelled as
  an explicit parameter of the factory operations.
-/

namespace wsframe

/-- `FrameBuffer`: a growable byte buffer. `data` models the
`std::vector<std::uint8_t> m_buf` (whose size is what `capacity()` reports)
and `ptr` models the write cursor `m_ptr`. -/
structure FrameBuffer where
  data : List Nat
  ptr : Nat
deriving DecidableEq

namespace FrameBuffer

/-- `FrameBuffer(initial_capacity)`: the vector is value-initialized, so it
holds `initial_capacity` zero bytes; the write cursor starts at 0. -/
def init (initial_capacity : Nat) : FrameBuffer :=
  { data := List.replicate initial_capacity 0, ptr := 0 }

/-- `capacity()` returns `m_buf.size()`. -/
def capacity (fb : FrameBuffer) : Nat := fb.data.length

/-- `size()` returns the write cursor `m_ptr`. -/
def size (fb : FrameBuffer) : Nat := fb.ptr

/-- `reset()` rewinds the write cursor without touching the storage. -/
def reset (fb : FrameBuffer) : FrameBuffer := { fb with ptr := 0 }

/-- `ensure_fit(sz)`: if `capacity() < sz` then `m_buf.resize(sz)`.
`std::vector::resize` keeps the existing bytes and zero-fills the tail. -/
def ensure_fit (fb : FrameBuffer) (sz : Nat) : FrameBuffer :=
  if fb.capacity < sz then
    { fb with data := fb.data ++ List.replicate (sz - fb.data.length) 0 }
  else fb

/-- `ensure_extra_space(extra)` is `ensure_fit(m_ptr + extra)`. -/
def ensure_extra_space (fb : FrameBuffer) (extra : Nat) : FrameBuffer :=
  fb.ensure_fit (fb.ptr + extra)

/-- `push_back(uint8_t byte)`: unchecked store `m_buf[m_ptr] = byte; m_ptr++`.
The store into a `std::uint8_t` cell truncates mod 256. -/
def push_back (fb : FrameBuffer) (b : Nat) : FrameBuffer :=
  { data := fb.data.set fb.ptr (b % 256), ptr := fb.ptr + 1 }

/-- `get_space(sz)` followed by writing `sz` bytes through the returned
pointer (the `memcpy`/loop idiom used by `Frame::construct` and
`push_back(const View&)`): the bytes land at positions
`[m_ptr, m_ptr + sz)` and the cursor advances by `sz`. Each store into the
`std::uint8_t` storage truncates mod 256. -/
def write_bytes (fb : FrameBuffer) (bs : List Nat) : FrameBuffer :=
  { data := fb.data.take fb.ptr ++ bs.map (· % 256) ++ fb.data.drop (fb.ptr + bs.length),
    ptr := fb.ptr + bs.length }

/-- `push_back(const View&)` / `push_back(const std::string_view&)`:
`ensure_extra_space(view.size())` (resp. the equivalent
`ensure_fit(m_ptr + view.size())`) then `memcpy` into `get_space`. -/
def push_back_view (fb : FrameBuffer) (bs : List Nat) : FrameBuffer :=
  (fb.ensure_fit (fb.ptr + bs.length)).write_bytes bs

/-- `view<std::string_view>()` / `view<View>()`: the bytes written so far,
i.e. the prefix of the storage up to the write cursor. -/
def contents (fb : FrameBuffer) : List Nat := fb.data.take fb.ptr

/-- Well-formedness of a buffer: the write cursor never passes the end of the
storage. Every buffer reachable through the public interface satisfies it. -/
def WF (fb : FrameBuffer) : Prop := fb.ptr ≤ fb.data.length

end FrameBuffer

/-- The `std::array<std::uint8_t, 4> masking_key` of a `Frame`: exactly four
byte values. -/
structure MaskKey where
  b0 : Nat
  b1 : Nat
  b2 : Nat
  b3 : Nat
deriving DecidableEq

namespace MaskKey

/-- `masking_key[j]` for an index already reduced mod 4. -/
def at4 (k : MaskKey) (j : Nat) : Nat :=
  if j % 4 = 0 then k.b0 else if j % 4 = 1 then k.b1 else if j % 4 = 2 then k.b2 else k.b3

/-- The four bytes in order, as copied by
`memcpy(buf.get_space(4), masking_key.data(), 4)`. -/
def list (k : MaskKey) : List Nat := [k.b0, k.b1, k.b2, k.b3]

end MaskKey

/-- One parsed/constructed frame. `opcode` carries the raw value of the
`enum class Opcode : uint8_t` (`CONTINUATION = 0x0`, `TEXT = 0x1`,
`BINARY = 0x2`, `CLOSE = 0x8`, `PING = 0x9`, `PONG = 0xA`; the implicit
`UNKNOWN` enumerator has value `0xB`). `payload` holds the
`std::string_view` bytes. -/
structure Frame where
  fin : Bool
  mask : Bool
  opcode : Nat
  masking_key : MaskKey
  payload : List Nat
deriving DecidableEq

namespace Frame

/-- `Frame{}` value-initialization: all fields zero / empty. -/
def default : Frame :=
  { fin := false, mask := false, opcode := 0, masking_key := ⟨0, 0, 0, 0⟩, payload := [] }

/-- The masked payload produced by the serializer's loop
`ptr[i] = payload_data[i] ^ masking_key[i % 4]` (positions are positions in
the payload, not in the whole frame). -/
def maskedPayload (payload : List Nat) (masking_key : MaskKey) : List Nat :=
  (List.range payload.length).map fun i => payload.getD i 0 ^^^ masking_key.at4 i

/-- `Frame::construct(FrameBuffer&)`: resets the buffer, reserves
`payload.length() + 14 + 100` bytes, then writes the first byte, the length
field (7-bit, or 126 + 2-byte big-endian, or 127 + 8-byte big-endian), the
4-byte masking key if masked, and finally the (masked or verbatim) payload. -/
def construct (fr : Frame) (buf : FrameBuffer) : FrameBuffer :=
  let buf := buf.reset
  let buf := buf.ensure_fit (fr.payload.length + 14 + 100)
  let buf := buf.push_back ((if fr.fin then 0x80 else 0x00) ||| (fr.opcode &&& 0x0F))
  let mask_bit : Nat := if fr.mask then 0x80 else 0x00
  let L := fr.payload.length
  let buf :=
    if L < 126 then
      buf.push_back (mask_bit ||| L)
    else if L ≤ 0xFFFF then
      ((buf.push_back (mask_bit ||| 126)).push_back ((L >>> 8) &&& 0xFF)).push_back (L &&& 0xFF)
    else
      (buf.push_back (mask_bit ||| 127)).write_bytes
        [(L >>> 56) &&& 0xFF, (L >>> 48) &&& 0xFF, (L >>> 40) &&& 0xFF, (L >>> 32) &&& 0xFF,
         (L >>> 24) &&& 0xFF, (L >>> 16) &&& 0xFF, (L >>> 8) &&& 0xFF, L &&& 0xFF]
  if fr.mask then
    (buf.write_bytes fr.masking_key.list).write_bytes (maskedPayload fr.payload fr.masking_key)
  else
    buf.write_bytes fr.payload

end Frame

/-- The length field bytes written by `Frame::construct` for payload length
`L` with the given mask bit (`0x80` or `0x00`), before the final mod-256
store into the buffer. -/
def lenFieldBytes (mask_bit L : Nat) : List Nat :=
  if L < 126 then [mask_bit ||| L]
  else if L ≤ 0xFFFF then [mask_bit ||| 126, (L >>> 8) &&& 0xFF, L &&& 0xFF]
  else [mask_bit ||| 127, (L >>> 56) &&& 0xFF, (L >>> 48) &&& 0xFF, (L >>> 40) &&& 0xFF,
        (L >>> 32) &&& 0xFF, (L >>> 24) &&& 0xFF, (L >>> 16) &&& 0xFF, (L >>> 8) &&& 0xFF,
        L &&& 0xFF]

/-- The byte values `Frame::construct` sends to the buffer, in order, before
the mod-256 store. -/
def rawEncode (fr : Frame) : List Nat :=
  [(if fr.fin then 0x80 else 0x00) ||| (fr.opcode &&& 0x0F)]
    ++ lenFieldBytes (if fr.mask then 0x80 else 0x00) fr.payload.length
    ++ (if fr.mask then fr.masking_key.list else [])
    ++ (if fr.mask then Frame.maskedPayload fr.payload fr.masking_key else fr.payload)

/-- The wire bytes of a frame: everything `Frame::construct` writes, after
the mod-256 store into the `std::uint8_t` buffer. -/
def encodeBytes (fr : Frame) : List Nat := (rawEncode fr).map (· % 256)

namespace FrameFactory

/-- `FrameFactory::construct(fin, opcode, mask, payload)`: builds a `Frame`
(drawing the masking key from the `RandomCache` when `mask` is set; the key
is seeded from OS entropy, so it is a parameter here), serializes it into the
internal buffer via `Frame::construct`, and returns
`m_buf.view<std::string_view>()`. The result pairs the new internal buffer
with the returned view. -/
def construct (fin : Bool) (opcode : Nat) (mask : Bool) (key : MaskKey)
    (payload : List Nat) (buf : FrameBuffer) : FrameBuffer × List Nat :=
  let fr : Frame :=
    { fin := fin, mask := mask, opcode := opcode, masking_key := key, payload := payload }
  let b := fr.construct buf
  (b, b.contents)

/-- `FrameFactory::text(fin, mask, payload)`. -/
def text (fin mask : Bool) (key : MaskKey) (payload : List Nat) (buf : FrameBuffer) :
    FrameBuffer × List Nat :=
  construct fin 0x1 mask key payload buf

/-- `FrameFactory::binary(fin, mask, payload)`. -/
def binary (fin mask : Bool) (key : MaskKey) (payload : List Nat) (buf : FrameBuffer) :
    FrameBuffer × List Nat :=
  construct fin 0x2 mask key payload buf

/-- `FrameFactory::ping(mask, payload)`: throws
`"Payload should be <= 125 for ping frames"` when `payload.size() > 125`,
before the factory's buffer is touched; otherwise serializes a final PING
frame. The pair carries the factory buffer state after the call together
with the outcome. -/
def ping (mask : Bool) (key : MaskKey) (payload : List Nat) (buf : FrameBuffer) :
    FrameBuffer × Except String (List Nat) :=
  if payload.length > 125 then
    (buf, Except.error "Payload should be <= 125 for ping frames")
  else
    let r := construct true 0x9 mask key payload buf
    (r.1, Except.ok r.2)

/-- `FrameFactory::pong(mask, payload)`: as `ping` for opcode PONG. -/
def pong (mask : Bool) (key : MaskKey) (payload : List Nat) (buf : FrameBuffer) :
    FrameBuffer × Except String (List Nat) :=
  if payload.length > 125 then
    (buf, Except.error "Payload should be <= 125 for pong frames")
  else
    let r := construct true 0xA mask key payload buf
    (r.1, Except.ok r.2)

/-- `FrameFactory::close(mask, payload)`: as `ping` for opcode CLOSE. -/
def close (mask : Bool) (key : MaskKey) (payload : List Nat) (buf : FrameBuffer) :
    FrameBuffer × Except String (List Nat) :=
  if payload.length > 125 then
    (buf, Except.error "Payload should be <= 125 for close frames")
  else
    let r := construct true 0x8 mask key payload buf
    (r.1, Except.ok r.2)

end FrameFactory

/-- The parse stages of `FrameParser`. -/
inductive ParseStage where
  | FIN_BIT
  | OPCODE
  | MASK_BIT
  | PAYLOAD_LEN
  | EXTENDED_PAYLOAD_LEN_16
  | EXTENDED_PAYLOAD_LEN_64
  | MASKING_KEY
  | PAYLOAD_DATA
  | DONE
deriving DecidableEq

/-- The state of a `FrameParser`: parse stage, the frame under construction,
the accumulator `FrameBuffer`, `m_payload_len` and the parse cursor `m_ptr`. -/
structure FrameParser where
  parse_stage : ParseStage
  frame : Frame
  frame_buffer : FrameBuffer
  payload_len : Nat
  ptr : Nat
deriving DecidableEq

namespace FrameParser

/-- `FrameParser()`: stage `FIN_BIT`, cursors at 0, default-constructed
accumulator buffer (capacity 4096). The members of `m_frame` are not written
before the parser assigns them; they are modelled as the value-initialized
`Frame`. -/
def init : FrameParser :=
  { parse_stage := .FIN_BIT, frame := Frame.default,
    frame_buffer := FrameBuffer.init 4096, payload_len := 0, ptr := 0 }

/-- `remaining()` is `m_frame_buffer.size() - m_ptr`. -/
def remaining (s : FrameParser) : Nat := s.frame_buffer.size - s.ptr

/-- The bytes accumulated in the parser's buffer (the prefix of the storage
up to the buffer's write cursor). -/
def bytes (s : FrameParser) : List Nat := s.frame_buffer.contents

/-- `read()` dereferences `head() + m_ptr`. Every call site is guarded by a
`remaining()` check, so the read lands inside the written prefix of the
buffer; it is modelled as a lookup in that prefix. `byteAt` is the same read
at offset `m_ptr + k` (used by the multi-byte stages, which consume as they
go). -/
def byteAt (s : FrameParser) (k : Nat) : Nat := (bytes s).getD (s.ptr + k) 0

/-- `check_fin_bit()`: needs stage `FIN_BIT` and at least one byte; sets
`fin` from the high bit of the first byte without consuming it. -/
def check_fin_bit (s : FrameParser) : FrameParser :=
  if s.parse_stage ≠ .FIN_BIT ∨ s.remaining = 0 then s
  else { s with frame := { s.frame with fin := s.byteAt 0 &&& 0x80 ≠ 0 },
                parse_stage := .OPCODE }

/-- `check_opcode()`: consumes the first byte and keeps its low 4 bits. -/
def check_opcode (s : FrameParser) : FrameParser :=
  if s.parse_stage ≠ .OPCODE ∨ s.remaining = 0 then s
  else { s with frame := { s.frame with opcode := s.byteAt 0 &&& 0x0F },
                ptr := s.ptr + 1, parse_stage := .MASK_BIT }

/-- `check_mask_bit()`: reads (without consuming) the high bit of the second
byte. -/
def check_mask_bit (s : FrameParser) : FrameParser :=
  if s.parse_stage ≠ .MASK_BIT ∨ s.remaining = 0 then s
  else { s with frame := { s.frame with mask := s.byteAt 0 &&& 0x80 ≠ 0 },
                parse_stage := .PAYLOAD_LEN }

/-- `check_payload_len()`: consumes the base length byte (low 7 bits);
126 and 127 escape to the extended-length stages, otherwise the length is
final and the stage moves to `MASKING_KEY` or `PAYLOAD_DATA`. -/
def check_payload_len (s : FrameParser) : FrameParser :=
  if s.parse_stage ≠ .PAYLOAD_LEN ∨ s.remaining = 0 then s
  else
    let len := s.byteAt 0 &&& 0x7F
    if len = 126 then
      { s with ptr := s.ptr + 1, parse_stage := .EXTENDED_PAYLOAD_LEN_16 }
    else if len = 127 then
      { s with ptr := s.ptr + 1, parse_stage := .EXTENDED_PAYLOAD_LEN_64 }
    else
      { s with payload_len := len, ptr := s.ptr + 1,
               parse_stage := if s.frame.mask then .MASKING_KEY else .PAYLOAD_DATA }

/-- `check_extended_payload_len_16()`: consumes two bytes into `uint64_t`
values and forms `(left << 8) | right`. -/
def check_extended_payload_len_16 (s : FrameParser) : FrameParser :=
  if s.parse_stage ≠ .EXTENDED_PAYLOAD_LEN_16 ∨ s.remaining < 2 then s
  else { s with payload_len := (s.byteAt 0 <<< 8) ||| s.byteAt 1,
                ptr := s.ptr + 2,
                parse_stage := if s.frame.mask then .MASKING_KEY else .PAYLOAD_DATA }

/-- One term of the `m_payload_len |= consume() << 8 * i` accumulation in
`check_extended_payload_len_64`. `consume()` returns `std::uint8_t`, which
integer promotion turns into a 32-bit signed `int` before the shift, so:
for `8 * i ≥ 32` the shift count reaches or exceeds the width of `int`,
which is undefined behavior in C++, modelled here as the common hardware
behavior of masking the shift count mod 32; the 32-bit result wraps mod
`2^32`; and when the wrapped result has the sign bit set, the conversion to
`uint64_t` performed by `|=` sign-extends it. -/
def shiftTermU64 (b i : Nat) : Nat :=
  let v := (b <<< ((8 * i) % 32)) % 4294967296
  if v < 2147483648 then v else (18446744073709551616 - 4294967296) + v

/-- `check_extended_payload_len_64()`: consumes eight bytes, accumulating
`m_payload_len |= consume() << 8 * i` for `i = 7` down to `0` (see
`shiftTermU64` for the integer-promotion semantics of each term). -/
def check_extended_payload_len_64 (s : FrameParser) : FrameParser :=
  if s.parse_stage ≠ .EXTENDED_PAYLOAD_LEN_64 ∨ s.remaining < 8 then s
  else { s with payload_len :=
                  shiftTermU64 (s.byteAt 0) 7 ||| shiftTermU64 (s.byteAt 1) 6 |||
                  shiftTermU64 (s.byteAt 2) 5 ||| shiftTermU64 (s.byteAt 3) 4 |||
                  shiftTermU64 (s.byteAt 4) 3 ||| shiftTermU64 (s.byteAt 5) 2 |||
                  shiftTermU64 (s.byteAt 6) 1 ||| shiftTermU64 (s.byteAt 7) 0,
                ptr := s.ptr + 8,
                parse_stage := if s.frame.mask then .MASKING_KEY else .PAYLOAD_DATA }

/-- `check_masking_key()`: consumes four bytes into `masking_key`. -/
def check_masking_key (s : FrameParser) : FrameParser :=
  if s.parse_stage ≠ .MASKING_KEY ∨ s.remaining < 4 then s
  else { s with frame := { s.frame with
                  masking_key := ⟨s.byteAt 0, s.byteAt 1, s.byteAt 2, s.byteAt 3⟩ },
                ptr := s.ptr + 4, parse_stage := .PAYLOAD_DATA }

/-- `check_payload_data()`: needs `remaining() ≥ m_payload_len`; a zero
length completes immediately, otherwise the payload view covers the next
`m_payload_len` buffered bytes and the cursor advances past them. -/
def check_payload_data (s : FrameParser) : FrameParser :=
  if s.parse_stage ≠ .PAYLOAD_DATA ∨ s.remaining < s.payload_len then s
  else if s.payload_len = 0 then { s with parse_stage := .DONE }
  else { s with frame := { s.frame with
                  payload := ((bytes s).drop s.ptr).take s.payload_len },
                ptr := s.ptr + s.payload_len, parse_stage := .DONE }

/-- The chain of per-stage steps run by `parse()`. -/
def parseSteps (s : FrameParser) : FrameParser :=
  check_payload_data (check_masking_key (check_extended_payload_len_64
    (check_extended_payload_len_16 (check_payload_len (check_mask_bit
      (check_opcode (check_fin_bit s)))))))

/-- `parse()`: runs every per-stage step, then returns the frame when
`done()`, and nothing otherwise. -/
def parse (s : FrameParser) : FrameParser × Option Frame :=
  let t := parseSteps s
  (t, if t.parse_stage = ParseStage.DONE then some t.frame else none)

/-- `reset()`: compacts unconsumed bytes (the `View(head() + m_ptr,
remaining())` slice of the storage) to the front of the buffer, clears the
frame, the payload length, both cursors, and returns to `FIN_BIT`. -/
def reset (s : FrameParser) : FrameParser :=
  let fb :=
    if s.remaining > 0 then
      let previous := (s.frame_buffer.data.drop s.ptr).take s.remaining
      s.frame_buffer.reset.push_back_view previous
    else s.frame_buffer.reset
  { parse_stage := .FIN_BIT, frame := Frame.default, frame_buffer := fb,
    payload_len := 0, ptr := 0 }

/-- `clear()`: hard reset, discarding all buffered bytes. -/
def clear (s : FrameParser) : FrameParser :=
  { parse_stage := .FIN_BIT, frame := Frame.default,
    frame_buffer := s.frame_buffer.reset, payload_len := 0, ptr := 0 }

/-- The `m_frame_buffer.push_back(view)` step of `update`: appends a chunk
to the accumulator buffer. -/
def append_chunk (s : FrameParser) (view : List Nat) : FrameParser :=
  { s with frame_buffer := s.frame_buffer.push_back_view view }

/-- `update(const std::string_view&)` (the `View` overload is identical):
after a completed frame, `reset()`; a non-empty chunk is appended to the
accumulator; an empty chunk mid-frame returns immediately; with an empty
buffer there is nothing to do; otherwise `parse()`. -/
def update (s : FrameParser) (view : List Nat) : FrameParser × Option Frame :=
  let s := if s.parse_stage = ParseStage.DONE then s.reset else s
  if view.length ≠ 0 then
    let s := s.append_chunk view
    if s.remaining = 0 then (s, none) else s.parse
  else if s.parse_stage ≠ ParseStage.FIN_BIT then (s, none)
  else if s.remaining = 0 then (s, none)
  else s.parse

/-- Driving a parser through successive `update` calls, one per chunk,
collecting the result of every call. -/
def feedChunks (s : FrameParser) (cs : List (List Nat)) :
    FrameParser × List (Option Frame) :=
  match cs with
  | [] => (s, [])
  | c :: rest =>
    let r := s.update c
    let rr := feedChunks r.1 rest
    (rr.1, r.2 :: rr.2)

/-- The state invariantively maintained by the parser: the parse cursor
never passes the buffer's write cursor, and the buffer itself is well
formed. -/
def Inv (s : FrameParser) : Prop :=
  s.ptr ≤ s.frame_buffer.size ∧ s.frame_buffer.WF

/-- All parser states produced by the public interface from a fresh
`FrameParser` through any sequence of `update` (with arbitrary chunks,
empty ones included) and `clear` calls. -/
inductive Reach : FrameParser → Prop where
  | init : Reach FrameParser.init
  | update (s : FrameParser) (bs : List Nat) : Reach s → Reach (s.update bs).1
  | clear (s : FrameParser) : Reach s → Reach s.clear

/-- The projection of a parser state that the per-stage checks act on:
`sz` is the buffer's write cursor (`m_frame_buffer.size()`) and `bs` the
written prefix of the buffer. -/
structure Core where
  parse_stage : ParseStage
  frame : Frame
  payload_len : Nat
  ptr : Nat
  sz : Nat
  bs : List Nat
deriving DecidableEq

/-- Project a parser state to its core. -/
def core (s : FrameParser) : Core :=
  { parse_stage := s.parse_stage, frame := s.frame, payload_len := s.payload_len,
    ptr := s.ptr, sz := s.frame_buffer.size, bs := s.bytes }

namespace Core

/-- `remaining()` on the projection. -/
def remaining (c : Core) : Nat := c.sz - c.ptr

/-- `read()` at offset `k` from the parse cursor, on the projection. -/
def byteAt (c : Core) (k : Nat) : Nat := c.bs.getD (c.ptr + k) 0

/-- `check_fin_bit` on the projection. -/
def step_fin_bit (c : Core) : Core :=
  if c.parse_stage ≠ .FIN_BIT ∨ c.remaining = 0 then c
  else { c with frame := { c.frame with fin := c.byteAt 0 &&& 0x80 ≠ 0 },
                parse_stage := .OPCODE }

/-- `check_opcode` on the projection. -/
def step_opcode (c : Core) : Core :=
  if c.parse_stage ≠ .OPCODE ∨ c.remaining = 0 then c
  else { c with frame := { c.frame with opcode := c.byteAt 0 &&& 0x0F },
                ptr := c.ptr + 1, parse_stage := .MASK_BIT }

/-- `check_mask_bit` on the projection. -/
def step_mask_bit (c : Core) : Core :=
  if c.parse_stage ≠ .MASK_BIT ∨ c.remaining = 0 then c
  else { c with frame := { c.frame with mask := c.byteAt 0 &&& 0x80 ≠ 0 },
                parse_stage := .PAYLOAD_LEN }

/-- `check_payload_len` on the projection. -/
def step_payload_len (c : Core) : Core :=
  if c.parse_stage ≠ .PAYLOAD_LEN ∨ c.remaining = 0 then c
  else
    let len := c.byteAt 0 &&& 0x7F
    if len = 126 then
      { c with ptr := c.ptr + 1, parse_stage := .EXTENDED_PAYLOAD_LEN_16 }
    else if len = 127 then
      { c with ptr := c.ptr + 1, parse_stage := .EXTENDED_PAYLOAD_LEN_64 }
    else
      { c with payload_len := len, ptr := c.ptr + 1,
               parse_stage := if c.frame.mask then .MASKING_KEY else .PAYLOAD_DATA }

/-- `check_extended_payload_len_16` on the projection. -/
def step_ext_len_16 (c : Core) : Core :=
  if c.parse_stage ≠ .EXTENDED_PAYLOAD_LEN_16 ∨ c.remaining < 2 then c
  else { c with payload_len := (c.byteAt 0 <<< 8) ||| c.byteAt 1,
                ptr := c.ptr + 2,
                parse_stage := if c.frame.mask then .MASKING_KEY else .PAYLOAD_DATA }

/-- `check_extended_payload_len_64` on the projection. -/
def step_ext_len_64 (c : Core) : Core :=
  if c.parse_stage ≠ .EXTENDED_PAYLOAD_LEN_64 ∨ c.remaining < 8 then c
  else { c with payload_len :=
                  shiftTermU64 (c.byteAt 0) 7 ||| shiftTermU64 (c.byteAt 1) 6 |||
                  shiftTermU64 (c.byteAt 2) 5 ||| shiftTermU64 (c.byteAt 3) 4 |||
                  shiftTermU64 (c.byteAt 4) 3 ||| shiftTermU64 (c.byteAt 5) 2 |||
                  shiftTermU64 (c.byteAt 6) 1 ||| shiftTermU64 (c.byteAt 7) 0,
                ptr := c.ptr + 8,
                parse_stage := if c.frame.mask then .MASKING_KEY else .PAYLOAD_DATA }

/-- `check_masking_key` on the projection. -/
def step_masking_key (c : Core) : Core :=
  if c.parse_stage ≠ .MASKING_KEY ∨ c.remaining < 4 then c
  else { c with frame := { c.frame with
                  masking_key := ⟨c.byteAt 0, c.byteAt 1, c.byteAt 2, c.byteAt 3⟩ },
                ptr := c.ptr + 4, parse_stage := .PAYLOAD_DATA }

/-- `check_payload_data` on the projection. -/
def step_payload_data (c : Core) : Core :=
  if c.parse_stage ≠ .PAYLOAD_DATA ∨ c.remaining < c.payload_len then c
  else if c.payload_len = 0 then { c with parse_stage := .DONE }
  else { c with frame := { c.frame with
                  payload := (c.bs.drop c.ptr).take c.payload_len },
                ptr := c.ptr + c.payload_len, parse_stage := .DONE }

/-- The full `parse()` chain on the projection. -/
def steps (c : Core) : Core :=
  step_payload_data (step_masking_key (step_ext_len_64 (step_ext_len_16
    (step_payload_len (step_mask_bit (step_opcode (step_fin_bit c)))))))

/-- A core is well formed when the parse cursor is within the written bytes
and the write cursor measures them. Every reachable parser state projects to
a well-formed core. -/
def WF (c : Core) : Prop := c.ptr ≤ c.sz ∧ c.sz = c.bs.length

/-- Appending a chunk to the accumulator, seen on the projection. -/
def app (c : Core) (e : List Nat) : Core :=
  { c with sz := c.sz + e.length, bs := c.bs ++ e }

end Core

/-- A fresh core holding exactly the byte list `bs`. -/
def Core.ofBytes (bs : List Nat) : Core :=
  { parse_stage := .FIN_BIT, frame := Frame.default, payload_len := 0,
    ptr := 0, sz := bs.length, bs := bs }

/-- The result of running the parse chain once over exactly the bytes `bs`. -/
def Core.runBytes (bs : List Nat) : Core := Core.steps (Core.ofBytes bs)

end FrameParser

/-- The unsigned big-endian integer formed from a list of bytes (the value
the extended-length field is specified to carry). -/
def beValue (b : List Nat) : Nat := b.foldl (fun acc x => acc * 256 + x) 0

/-! ## Basic facts about `FrameBuffer` -/

namespace FrameBuffer

theorem wf_init (c : Nat) : (init c).WF := by
  simp [WF, init]

theorem take_succ_set (l : List Nat) (p : Nat) (a : Nat) (h : p < l.length) :
    (l.set p a).take (p + 1) = l.take p ++ [a] := by
  induction l generalizing p with
  | nil => simp at h
  | cons x xs ih =>
    cases p with
    | zero => simp
    | succ q =>
      simp only [List.set_cons_succ, List.take_succ_cons, List.cons_append]
      exact congrArg (x :: ·) (ih q (by simpa using h))

@[simp] theorem ptr_reset (fb : FrameBuffer) : fb.reset.ptr = 0 := rfl

@[simp] theorem data_reset (fb : FrameBuffer) : fb.reset.data = fb.data := rfl

@[simp] theorem contents_reset (fb : FrameBuffer) : fb.reset.contents = [] := by
  simp [contents, reset]

theorem wf_reset (fb : FrameBuffer) : fb.reset.WF := by
  simp [WF, reset]

@[simp] theorem ptr_ensure_fit (fb : FrameBuffer) (sz : Nat) :
    (fb.ensure_fit sz).ptr = fb.ptr := by
  unfold ensure_fit; split <;> rfl

theorem length_data_ensure_fit (fb : FrameBuffer) (sz : Nat) :
    (fb.ensure_fit sz).data.length = max fb.data.length sz := by
  unfold ensure_fit capacity; split <;> rename_i h
  · simp only [List.length_append, List.length_replicate]; omega
  · omega

theorem contents_ensure_fit (fb : FrameBuffer) (sz : Nat) (h : fb.WF) :
    (fb.ensure_fit sz).contents = fb.contents := by
  unfold ensure_fit contents; split
  · exact List.take_append_of_le_length h
  · rfl

theorem wf_ensure_fit (fb : FrameBuffer) (sz : Nat) (h : fb.WF) :
    (fb.ensure_fit sz).WF := by
  have := length_data_ensure_fit fb sz
  unfold WF at *; simp [this]; omega

@[simp] theorem ptr_push_back (fb : FrameBuffer) (b : Nat) :
    (fb.push_back b).ptr = fb.ptr + 1 := rfl

theorem length_data_push_back (fb : FrameBuffer) (b : Nat) :
    (fb.push_back b).data.length = fb.data.length := by
  simp [push_back]

theorem contents_push_back (fb : FrameBuffer) (b : Nat) (h : fb.ptr < fb.data.length) :
    (fb.push_back b).contents = fb.contents ++ [b % 256] := by
  unfold contents push_back
  exact take_succ_set fb.data fb.ptr (b % 256) h

theorem wf_push_back (fb : FrameBuffer) (b : Nat) (h : fb.ptr < fb.data.length) :
    (fb.push_back b).WF := by
  unfold WF at *; simp [push_back]; omega

@[simp] theorem ptr_write_bytes (fb : FrameBuffer) (bs : List Nat) :
    (fb.write_bytes bs).ptr = fb.ptr + bs.length := rfl

theorem length_data_write_bytes (fb : FrameBuffer) (bs : List Nat)
    (h : fb.ptr + bs.length ≤ fb.data.length) :
    (fb.write_bytes bs).data.length = fb.data.length := by
  unfold write_bytes
  simp only [List.length_append, List.length_take, List.length_map, List.length_drop]
  omega

theorem contents_write_bytes (fb : FrameBuffer) (bs : List Nat)
    (h : fb.ptr + bs.length ≤ fb.data.length) :
    (fb.write_bytes bs).contents = fb.contents ++ bs.map (· % 256) := by
  unfold contents write_bytes
  simp only
  have hAB : (fb.data.take fb.ptr ++ bs.map (· % 256)).length = fb.ptr + bs.length := by
    simp only [List.length_append, List.length_take, List.length_map]
    omega
  rw [show fb.data.take fb.ptr ++ bs.map (· % 256) ++ fb.data.drop (fb.ptr + bs.length)
        = (fb.data.take fb.ptr ++ bs.map (· % 256)) ++ fb.data.drop (fb.ptr + bs.length)
      from rfl,
      List.take_append_of_le_length (le_of_eq hAB.symm),
      List.take_of_length_le (le_of_eq hAB)]

theorem wf_write_bytes (fb : FrameBuffer) (bs : List Nat)
    (h : fb.ptr + bs.length ≤ fb.data.length) : (fb.write_bytes bs).WF := by
  unfold WF
  rw [ptr_write_bytes, length_data_write_bytes fb bs h]
  exact h

@[simp] theorem ptr_push_back_view (fb : FrameBuffer) (bs : List Nat) :
    (fb.push_back_view bs).ptr = fb.ptr + bs.length := by
  simp [push_back_view]

theorem fit_push_back_view (fb : FrameBuffer) (bs : List Nat) :
    (fb.ensure_fit (fb.ptr + bs.length)).ptr + bs.length
      ≤ (fb.ensure_fit (fb.ptr + bs.length)).data.length := by
  rw [ptr_ensure_fit, length_data_ensure_fit]
  omega

theorem contents_push_back_view (fb : FrameBuffer) (bs : List Nat) (h : fb.WF) :
    (fb.push_back_view bs).contents = fb.contents ++ bs.map (· % 256) := by
  unfold push_back_view
  rw [contents_write_bytes _ _ (fit_push_back_view fb bs),
      contents_ensure_fit fb _ h]

theorem wf_push_back_view (fb : FrameBuffer) (bs : List Nat) :
    (fb.push_back_view bs).WF :=
  wf_write_bytes _ _ (fit_push_back_view fb bs)

theorem length_contents (fb : FrameBuffer) (h : fb.WF) :
    fb.contents.length = fb.ptr := by
  unfold contents; simp; exact h

theorem length_data_push_back_view (fb : FrameBuffer) (bs : List Nat) :
    (fb.push_back_view bs).data.length = max fb.data.length (fb.ptr + bs.length) := by
  unfold push_back_view
  rw [length_data_write_bytes _ _ (fit_push_back_view fb bs), length_data_ensure_fit]

end FrameBuffer

/-! ## The serializer writes exactly the wire bytes -/

namespace Frame

theorem length_maskedPayload (p : List Nat) (k : MaskKey) :
    (maskedPayload p k).length = p.length := by
  simp [maskedPayload]

theorem length_lenFieldBytes (mb L : Nat) :
    (lenFieldBytes mb L).length = if L < 126 then 1 else if L ≤ 0xFFFF then 3 else 9 := by
  unfold lenFieldBytes; split
  · simp_all
  · split <;> simp_all

theorem length_rawEncode (fr : Frame) :
    (rawEncode fr).length =
      1 + (if fr.payload.length < 126 then 1 else if fr.payload.length ≤ 0xFFFF then 3 else 9)
        + (if fr.mask then 4 else 0) + fr.payload.length := by
  unfold rawEncode
  simp only [List.length_append, List.length_cons, List.length_nil, length_lenFieldBytes]
  by_cases hm : fr.mask
  · simp [hm, MaskKey.list, length_maskedPayload]
  · simp [hm, MaskKey.list, length_maskedPayload]

/-- What `Frame::construct` does to the buffer: the written prefix is exactly
the wire encoding of the frame, the write cursor sits right after it, and the
storage was grown (only) to `payload.length + 114` if it was smaller. -/
theorem construct_spec (fr : Frame) (buf : FrameBuffer) :
    (fr.construct buf).contents = encodeBytes fr
    ∧ (fr.construct buf).ptr = (rawEncode fr).length
    ∧ (fr.construct buf).data.length = max buf.data.length (fr.payload.length + 114) := by
  unfold construct
  dsimp only
  set L := fr.payload.length with hL
  set b2 := (buf.reset.ensure_fit (L + 14 + 100)) with hb2
  have hb2ptr : b2.ptr = 0 := by rw [hb2, FrameBuffer.ptr_ensure_fit, FrameBuffer.ptr_reset]
  have hb2len : b2.data.length = max buf.data.length (L + 114) := by
    rw [hb2, FrameBuffer.length_data_ensure_fit]; simp
  have hb2c : b2.contents = [] := by
    rw [hb2, FrameBuffer.contents_ensure_fit _ _ (FrameBuffer.wf_reset buf),
        FrameBuffer.contents_reset]
  set x0 := ((if fr.fin then 0x80 else 0x00) ||| (fr.opcode &&& 0x0F)) with hx0
  set b3 := b2.push_back x0 with hb3
  have hb3ptr : b3.ptr = 1 := by rw [hb3, FrameBuffer.ptr_push_back, hb2ptr]
  have hb3len : b3.data.length = b2.data.length := FrameBuffer.length_data_push_back _ _
  have hb3c : b3.contents = [x0 % 256] := by
    rw [hb3, FrameBuffer.contents_push_back _ _ (by rw [hb2ptr, hb2len]; omega), hb2c]
    simp
  -- the header after the length field, in each of the three length branches
  set mb := (if fr.mask then (0x80:Nat) else 0x00) with hmb
  have key : ∀ b4 : FrameBuffer,
      b4.contents = ([x0] ++ lenFieldBytes mb L).map (· % 256) →
      b4.ptr = 1 + (lenFieldBytes mb L).length →
      b4.data.length = max buf.data.length (L + 114) →
      ((if fr.mask then
          (b4.write_bytes fr.masking_key.list).write_bytes (maskedPayload fr.payload fr.masking_key)
        else b4.write_bytes fr.payload).contents = encodeBytes fr
      ∧ (if fr.mask then
          (b4.write_bytes fr.masking_key.list).write_bytes (maskedPayload fr.payload fr.masking_key)
        else b4.write_bytes fr.payload).ptr = (rawEncode fr).length
      ∧ (if fr.mask then
          (b4.write_bytes fr.masking_key.list).write_bytes (maskedPayload fr.payload fr.masking_key)
        else b4.write_bytes fr.payload).data.length = max buf.data.length (L + 114)) := by
    intro b4 hc hp hlen
    have hlf : (lenFieldBytes mb L).length ≤ 9 := by
      rw [length_lenFieldBytes]
      split
      · norm_num
      · split <;> norm_num
    by_cases hm : fr.mask
    · have hfit1 : b4.ptr + fr.masking_key.list.length ≤ b4.data.length := by
        rw [hp, hlen]; simp [MaskKey.list]; omega
      set b5 := b4.write_bytes fr.masking_key.list with hb5
      have hfit2 : b5.ptr + (maskedPayload fr.payload fr.masking_key).length ≤ b5.data.length := by
        rw [hb5, FrameBuffer.ptr_write_bytes, FrameBuffer.length_data_write_bytes _ _ hfit1,
            hp, hlen, length_maskedPayload]
        simp [MaskKey.list]; omega
      simp only [hm, if_true]
      refine ⟨?_, ?_, ?_⟩
      · rw [FrameBuffer.contents_write_bytes _ _ hfit2, hb5,
            FrameBuffer.contents_write_bytes _ _ hfit1, hc]
        simp only [encodeBytes, rawEncode, hm, if_true, List.map_append, hmb, hx0]
      · rw [FrameBuffer.ptr_write_bytes, hb5, FrameBuffer.ptr_write_bytes, hp,
            length_rawEncode, length_maskedPayload, length_lenFieldBytes]
        simp [hm, MaskKey.list, ← hL]
      · rw [FrameBuffer.length_data_write_bytes _ _ hfit2, hb5,
            FrameBuffer.length_data_write_bytes _ _ hfit1, hlen]
    · rw [Bool.not_eq_true] at hm
      have hfit : b4.ptr + fr.payload.length ≤ b4.data.length := by
        rw [hp, hlen]; omega
      simp only [hm, Bool.false_eq_true, if_false]
      refine ⟨?_, ?_, ?_⟩
      · rw [FrameBuffer.contents_write_bytes _ _ hfit, hc]
        simp only [encodeBytes, rawEncode, hm, Bool.false_eq_true, if_false,
          List.map_append, hmb, hx0]
        simp [← hL]
      · rw [FrameBuffer.ptr_write_bytes, hp, length_rawEncode, length_lenFieldBytes]
        simp [hm, ← hL]
      · rw [FrameBuffer.length_data_write_bytes _ _ hfit, hlen]
  by_cases h1 : L < 126
  · simp only [if_pos h1]
    refine key (b3.push_back (mb ||| L)) ?_ ?_ ?_
    · rw [FrameBuffer.contents_push_back _ _ (by rw [hb3ptr, hb3len, hb2len]; omega), hb3c]
      simp [lenFieldBytes, h1]
    · rw [FrameBuffer.ptr_push_back, hb3ptr, length_lenFieldBytes]
      simp [h1]
    · rw [FrameBuffer.length_data_push_back, hb3len, hb2len]
  · by_cases h2 : L ≤ 0xFFFF
    · simp only [if_neg h1, if_pos h2]
      refine key (((b3.push_back (mb ||| 126)).push_back ((L >>> 8) &&& 0xFF)).push_back (L &&& 0xFF)) ?_ ?_ ?_
      · rw [FrameBuffer.contents_push_back _ _ (by
              simp only [FrameBuffer.ptr_push_back, FrameBuffer.length_data_push_back, hb3ptr, hb3len, hb2len]; omega),
            FrameBuffer.contents_push_back _ _ (by
              simp only [FrameBuffer.ptr_push_back, FrameBuffer.length_data_push_back, hb3ptr, hb3len, hb2len]; omega),
            FrameBuffer.contents_push_back _ _ (by rw [hb3ptr, hb3len, hb2len]; omega), hb3c]
        simp [lenFieldBytes, h1, h2]
      · simp only [FrameBuffer.ptr_push_back, hb3ptr, length_lenFieldBytes, if_neg h1, if_pos h2]
      · simp only [FrameBuffer.length_data_push_back, hb3len, hb2len]
    · simp only [if_neg h1, if_neg h2]
      set bes := [(L >>> 56) &&& 0xFF, (L >>> 48) &&& 0xFF, (L >>> 40) &&& 0xFF, (L >>> 32) &&& 0xFF,
         (L >>> 24) &&& 0xFF, (L >>> 16) &&& 0xFF, (L >>> 8) &&& 0xFF, L &&& 0xFF] with hbes
      refine key ((b3.push_back (mb ||| 127)).write_bytes bes) ?_ ?_ ?_
      · rw [FrameBuffer.contents_write_bytes _ _ (by
              simp only [FrameBuffer.ptr_push_back, FrameBuffer.length_data_push_back, hb3ptr, hb3len, hb2len, hbes]
              simp),
            FrameBuffer.contents_push_back _ _ (by rw [hb3ptr, hb3len, hb2len]; omega), hb3c]
        simp [lenFieldBytes, h1, h2, hbes]
      · simp only [FrameBuffer.ptr_write_bytes, FrameBuffer.ptr_push_back, hb3ptr,
          length_lenFieldBytes, if_neg h1, if_neg h2, hbes]
        simp
      · rw [FrameBuffer.length_data_write_bytes _ _ (by
              simp only [FrameBuffer.ptr_push_back, FrameBuffer.length_data_push_back, hb3ptr, hb3len, hb2len, hbes]
              simp),
            FrameBuffer.length_data_push_back, hb3len, hb2len]

end Frame

/-! ## Core simulation of the parser

None of the per-stage check functions of `FrameParser` modifies the
accumulator buffer; each reads it only through `byteAt`, i.e. through the
written prefix `bytes` and the write cursor. The `Core` record projects out
exactly the data the checks can see and change (stage, frame, payload
length, parse cursor, write cursor, written bytes), and each check is shown
to act through this projection. The chunk-invariance arguments are then
carried out on the projection. -/

namespace FrameParser


theorem core_check_fin_bit (s : FrameParser) :
    core (check_fin_bit s) = Core.step_fin_bit (core s) := by
  unfold check_fin_bit Core.step_fin_bit core Core.remaining Core.byteAt
    remaining byteAt
  dsimp only
  split_ifs <;> rfl

theorem core_check_opcode (s : FrameParser) :
    core (check_opcode s) = Core.step_opcode (core s) := by
  unfold check_opcode Core.step_opcode core Core.remaining Core.byteAt
    remaining byteAt
  dsimp only
  split_ifs <;> rfl

theorem core_check_mask_bit (s : FrameParser) :
    core (check_mask_bit s) = Core.step_mask_bit (core s) := by
  unfold check_mask_bit Core.step_mask_bit core Core.remaining Core.byteAt
    remaining byteAt
  dsimp only
  split_ifs <;> rfl

theorem core_check_payload_len (s : FrameParser) :
    core (check_payload_len s) = Core.step_payload_len (core s) := by
  unfold check_payload_len Core.step_payload_len core Core.remaining Core.byteAt
    remaining byteAt
  dsimp only
  split_ifs <;> rfl

theorem core_check_ext_len_16 (s : FrameParser) :
    core (check_extended_payload_len_16 s) = Core.step_ext_len_16 (core s) := by
  unfold check_extended_payload_len_16 Core.step_ext_len_16 core Core.remaining
    Core.byteAt remaining byteAt
  dsimp only
  split_ifs <;> rfl

theorem core_check_ext_len_64 (s : FrameParser) :
    core (check_extended_payload_len_64 s) = Core.step_ext_len_64 (core s) := by
  unfold check_extended_payload_len_64 Core.step_ext_len_64 core Core.remaining
    Core.byteAt remaining byteAt
  dsimp only
  split_ifs <;> rfl

theorem core_check_masking_key (s : FrameParser) :
    core (check_masking_key s) = Core.step_masking_key (core s) := by
  unfold check_masking_key Core.step_masking_key core Core.remaining Core.byteAt
    remaining byteAt
  dsimp only
  split_ifs <;> rfl

theorem core_check_payload_data (s : FrameParser) :
    core (check_payload_data s) = Core.step_payload_data (core s) := by
  unfold check_payload_data Core.step_payload_data core Core.remaining remaining
  dsimp only
  split_ifs <;> rfl

theorem core_parseSteps (s : FrameParser) :
    core (parseSteps s) = Core.steps (core s) := by
  have h : parseSteps s = check_payload_data (check_masking_key
      (check_extended_payload_len_64 (check_extended_payload_len_16
        (check_payload_len (check_mask_bit (check_opcode (check_fin_bit s))))))) := rfl
  rw [h, core_check_payload_data, core_check_masking_key, core_check_ext_len_64,
      core_check_ext_len_16, core_check_payload_len, core_check_mask_bit,
      core_check_opcode, core_check_fin_bit]
  rfl

theorem core_stage (s : FrameParser) : (core s).parse_stage = s.parse_stage := rfl

theorem core_frame (s : FrameParser) : (core s).frame = s.frame := rfl

theorem core_ptr (s : FrameParser) : (core s).ptr = s.ptr := rfl

theorem core_sz (s : FrameParser) : (core s).sz = s.frame_buffer.size := rfl

theorem core_bs (s : FrameParser) : (core s).bs = s.bytes := rfl

theorem parse_eq (s : FrameParser) :
    s.parse = (parseSteps s, if (parseSteps s).parse_stage = ParseStage.DONE
      then some (parseSteps s).frame else none) := rfl

theorem parse_fst (s : FrameParser) : (s.parse).1 = parseSteps s := by
  rw [parse_eq]

theorem parse_snd (s : FrameParser) :
    (s.parse).2 = (if (Core.steps (core s)).parse_stage = ParseStage.DONE
      then some (Core.steps (core s)).frame else none) := by
  rw [parse_eq, ← core_parseSteps s, core_stage, core_frame]

theorem check_fin_bit_fbuf (s : FrameParser) :
    (check_fin_bit s).frame_buffer = s.frame_buffer := by
  unfold check_fin_bit; split_ifs <;> rfl

theorem check_opcode_fbuf (s : FrameParser) :
    (check_opcode s).frame_buffer = s.frame_buffer := by
  unfold check_opcode; split_ifs <;> rfl

theorem check_mask_bit_fbuf (s : FrameParser) :
    (check_mask_bit s).frame_buffer = s.frame_buffer := by
  unfold check_mask_bit; split_ifs <;> rfl

theorem check_payload_len_fbuf (s : FrameParser) :
    (check_payload_len s).frame_buffer = s.frame_buffer := by
  unfold check_payload_len; dsimp only; split_ifs <;> rfl

theorem check_ext_len_16_fbuf (s : FrameParser) :
    (check_extended_payload_len_16 s).frame_buffer = s.frame_buffer := by
  unfold check_extended_payload_len_16; split_ifs <;> rfl

theorem check_ext_len_64_fbuf (s : FrameParser) :
    (check_extended_payload_len_64 s).frame_buffer = s.frame_buffer := by
  unfold check_extended_payload_len_64; split_ifs <;> rfl

theorem check_masking_key_fbuf (s : FrameParser) :
    (check_masking_key s).frame_buffer = s.frame_buffer := by
  unfold check_masking_key; split_ifs <;> rfl

theorem check_payload_data_fbuf (s : FrameParser) :
    (check_payload_data s).frame_buffer = s.frame_buffer := by
  unfold check_payload_data; split_ifs <;> rfl

theorem frame_buffer_parseSteps (s : FrameParser) :
    (parseSteps s).frame_buffer = s.frame_buffer := by
  unfold parseSteps
  rw [check_payload_data_fbuf, check_masking_key_fbuf, check_ext_len_64_fbuf,
      check_ext_len_16_fbuf, check_payload_len_fbuf, check_mask_bit_fbuf,
      check_opcode_fbuf, check_fin_bit_fbuf]



namespace Core

/-! ### No-op and firing equations for the per-stage steps -/

theorem step_fin_bit_noop (c : Core) (h : c.parse_stage ≠ .FIN_BIT ∨ c.remaining = 0) :
    step_fin_bit c = c := by
  unfold step_fin_bit; exact if_pos h

theorem step_opcode_noop (c : Core) (h : c.parse_stage ≠ .OPCODE ∨ c.remaining = 0) :
    step_opcode c = c := by
  unfold step_opcode; exact if_pos h

theorem step_mask_bit_noop (c : Core) (h : c.parse_stage ≠ .MASK_BIT ∨ c.remaining = 0) :
    step_mask_bit c = c := by
  unfold step_mask_bit; exact if_pos h

theorem step_payload_len_noop (c : Core)
    (h : c.parse_stage ≠ .PAYLOAD_LEN ∨ c.remaining = 0) :
    step_payload_len c = c := by
  unfold step_payload_len; exact if_pos h

theorem step_ext_len_16_noop (c : Core)
    (h : c.parse_stage ≠ .EXTENDED_PAYLOAD_LEN_16 ∨ c.remaining < 2) :
    step_ext_len_16 c = c := by
  unfold step_ext_len_16; exact if_pos h

theorem step_ext_len_64_noop (c : Core)
    (h : c.parse_stage ≠ .EXTENDED_PAYLOAD_LEN_64 ∨ c.remaining < 8) :
    step_ext_len_64 c = c := by
  unfold step_ext_len_64; exact if_pos h

theorem step_masking_key_noop (c : Core)
    (h : c.parse_stage ≠ .MASKING_KEY ∨ c.remaining < 4) :
    step_masking_key c = c := by
  unfold step_masking_key; exact if_pos h

theorem step_payload_data_noop (c : Core)
    (h : c.parse_stage ≠ .PAYLOAD_DATA ∨ c.remaining < c.payload_len) :
    step_payload_data c = c := by
  unfold step_payload_data; exact if_pos h

theorem step_fin_bit_fired (c : Core) (h1 : c.parse_stage = .FIN_BIT)
    (h2 : ¬ c.remaining = 0) :
    step_fin_bit c = { c with frame := { c.frame with fin := c.byteAt 0 &&& 0x80 ≠ 0 },
                              parse_stage := .OPCODE } := by
  unfold step_fin_bit; rw [if_neg (by simp [h1, h2])]

theorem step_opcode_fired (c : Core) (h1 : c.parse_stage = .OPCODE)
    (h2 : ¬ c.remaining = 0) :
    step_opcode c = { c with frame := { c.frame with opcode := c.byteAt 0 &&& 0x0F },
                             ptr := c.ptr + 1, parse_stage := .MASK_BIT } := by
  unfold step_opcode; rw [if_neg (by simp [h1, h2])]

theorem step_mask_bit_fired (c : Core) (h1 : c.parse_stage = .MASK_BIT)
    (h2 : ¬ c.remaining = 0) :
    step_mask_bit c = { c with frame := { c.frame with mask := c.byteAt 0 &&& 0x80 ≠ 0 },
                               parse_stage := .PAYLOAD_LEN } := by
  unfold step_mask_bit; rw [if_neg (by simp [h1, h2])]

theorem step_payload_len_fired_16 (c : Core) (h1 : c.parse_stage = .PAYLOAD_LEN)
    (h2 : ¬ c.remaining = 0) (h3 : c.byteAt 0 &&& 0x7F = 126) :
    step_payload_len c
      = { c with ptr := c.ptr + 1, parse_stage := .EXTENDED_PAYLOAD_LEN_16 } := by
  unfold step_payload_len; rw [if_neg (by simp [h1, h2])]; dsimp only; rw [if_pos h3]

theorem step_payload_len_fired_64 (c : Core) (h1 : c.parse_stage = .PAYLOAD_LEN)
    (h2 : ¬ c.remaining = 0) (h3 : c.byteAt 0 &&& 0x7F = 127) :
    step_payload_len c
      = { c with ptr := c.ptr + 1, parse_stage := .EXTENDED_PAYLOAD_LEN_64 } := by
  unfold step_payload_len; rw [if_neg (by simp [h1, h2])]; dsimp only
  rw [if_neg (by simp [h3]), if_pos h3]

theorem step_payload_len_fired_small (c : Core) (h1 : c.parse_stage = .PAYLOAD_LEN)
    (h2 : ¬ c.remaining = 0) (h3 : ¬ c.byteAt 0 &&& 0x7F = 126)
    (h4 : ¬ c.byteAt 0 &&& 0x7F = 127) :
    step_payload_len c
      = { c with payload_len := c.byteAt 0 &&& 0x7F, ptr := c.ptr + 1,
                 parse_stage := if c.frame.mask then .MASKING_KEY else .PAYLOAD_DATA } := by
  unfold step_payload_len; rw [if_neg (by simp [h1, h2])]; dsimp only
  rw [if_neg h3, if_neg h4]

theorem step_ext_len_16_fired (c : Core) (h1 : c.parse_stage = .EXTENDED_PAYLOAD_LEN_16)
    (h2 : ¬ c.remaining < 2) :
    step_ext_len_16 c
      = { c with payload_len := (c.byteAt 0 <<< 8) ||| c.byteAt 1, ptr := c.ptr + 2,
                 parse_stage := if c.frame.mask then .MASKING_KEY else .PAYLOAD_DATA } := by
  unfold step_ext_len_16; rw [if_neg (by simp [h1, h2])]

theorem step_ext_len_64_fired (c : Core) (h1 : c.parse_stage = .EXTENDED_PAYLOAD_LEN_64)
    (h2 : ¬ c.remaining < 8) :
    step_ext_len_64 c
      = { c with payload_len :=
                  shiftTermU64 (c.byteAt 0) 7 ||| shiftTermU64 (c.byteAt 1) 6 |||
                  shiftTermU64 (c.byteAt 2) 5 ||| shiftTermU64 (c.byteAt 3) 4 |||
                  shiftTermU64 (c.byteAt 4) 3 ||| shiftTermU64 (c.byteAt 5) 2 |||
                  shiftTermU64 (c.byteAt 6) 1 ||| shiftTermU64 (c.byteAt 7) 0,
                 ptr := c.ptr + 8,
                 parse_stage := if c.frame.mask then .MASKING_KEY else .PAYLOAD_DATA } := by
  unfold step_ext_len_64; rw [if_neg (by simp [h1, h2])]

theorem step_masking_key_fired (c : Core) (h1 : c.parse_stage = .MASKING_KEY)
    (h2 : ¬ c.remaining < 4) :
    step_masking_key c
      = { c with frame := { c.frame with
                   masking_key := ⟨c.byteAt 0, c.byteAt 1, c.byteAt 2, c.byteAt 3⟩ },
                 ptr := c.ptr + 4, parse_stage := .PAYLOAD_DATA } := by
  unfold step_masking_key; rw [if_neg (by simp [h1, h2])]

theorem step_payload_data_fired_zero (c : Core) (h1 : c.parse_stage = .PAYLOAD_DATA)
    (h2 : ¬ c.remaining < c.payload_len) (h3 : c.payload_len = 0) :
    step_payload_data c = { c with parse_stage := .DONE } := by
  unfold step_payload_data; rw [if_neg (by simp [h1, h2])]; rw [if_pos h3]

theorem step_payload_data_fired_pos (c : Core) (h1 : c.parse_stage = .PAYLOAD_DATA)
    (h2 : ¬ c.remaining < c.payload_len) (h3 : ¬ c.payload_len = 0) :
    step_payload_data c
      = { c with frame := { c.frame with
                   payload := (c.bs.drop c.ptr).take c.payload_len },
                 ptr := c.ptr + c.payload_len, parse_stage := .DONE } := by
  unfold step_payload_data; rw [if_neg (by simp [h1, h2])]; rw [if_neg h3]

/-! ### The steps never touch the write cursor or the buffered bytes -/

theorem step_fin_bit_sz_bs (c : Core) :
    (step_fin_bit c).sz = c.sz ∧ (step_fin_bit c).bs = c.bs := by
  unfold step_fin_bit; split_ifs <;> exact ⟨rfl, rfl⟩

theorem step_opcode_sz_bs (c : Core) :
    (step_opcode c).sz = c.sz ∧ (step_opcode c).bs = c.bs := by
  unfold step_opcode; split_ifs <;> exact ⟨rfl, rfl⟩

theorem step_mask_bit_sz_bs (c : Core) :
    (step_mask_bit c).sz = c.sz ∧ (step_mask_bit c).bs = c.bs := by
  unfold step_mask_bit; split_ifs <;> exact ⟨rfl, rfl⟩

theorem step_payload_len_sz_bs (c : Core) :
    (step_payload_len c).sz = c.sz ∧ (step_payload_len c).bs = c.bs := by
  unfold step_payload_len; dsimp only; split_ifs <;> exact ⟨rfl, rfl⟩

theorem step_ext_len_16_sz_bs (c : Core) :
    (step_ext_len_16 c).sz = c.sz ∧ (step_ext_len_16 c).bs = c.bs := by
  unfold step_ext_len_16; split_ifs <;> exact ⟨rfl, rfl⟩

theorem step_ext_len_64_sz_bs (c : Core) :
    (step_ext_len_64 c).sz = c.sz ∧ (step_ext_len_64 c).bs = c.bs := by
  unfold step_ext_len_64; split_ifs <;> exact ⟨rfl, rfl⟩

theorem step_masking_key_sz_bs (c : Core) :
    (step_masking_key c).sz = c.sz ∧ (step_masking_key c).bs = c.bs := by
  unfold step_masking_key; split_ifs <;> exact ⟨rfl, rfl⟩

theorem step_payload_data_sz_bs (c : Core) :
    (step_payload_data c).sz = c.sz ∧ (step_payload_data c).bs = c.bs := by
  unfold step_payload_data; split_ifs <;> exact ⟨rfl, rfl⟩

theorem steps_sz_bs (c : Core) : (steps c).sz = c.sz ∧ (steps c).bs = c.bs := by
  unfold steps
  refine ⟨?_, ?_⟩
  · rw [(step_payload_data_sz_bs _).1, (step_masking_key_sz_bs _).1,
        (step_ext_len_64_sz_bs _).1, (step_ext_len_16_sz_bs _).1,
        (step_payload_len_sz_bs _).1, (step_mask_bit_sz_bs _).1,
        (step_opcode_sz_bs _).1, (step_fin_bit_sz_bs _).1]
  · rw [(step_payload_data_sz_bs _).2, (step_masking_key_sz_bs _).2,
        (step_ext_len_64_sz_bs _).2, (step_ext_len_16_sz_bs _).2,
        (step_payload_len_sz_bs _).2, (step_mask_bit_sz_bs _).2,
        (step_opcode_sz_bs _).2, (step_fin_bit_sz_bs _).2]

/-! ### Well-formedness is preserved -/

theorem step_fin_bit_wf (c : Core) (h : c.WF) : (step_fin_bit c).WF := by
  unfold step_fin_bit; split_ifs <;> exact h

theorem step_opcode_wf (c : Core) (h : c.WF) : (step_opcode c).WF := by
  unfold step_opcode; split_ifs with hc
  · exact h
  · push_neg at hc
    obtain ⟨hw1, hw2⟩ := h
    unfold WF remaining at *
    dsimp only
    constructor
    · omega
    · exact hw2

theorem step_mask_bit_wf (c : Core) (h : c.WF) : (step_mask_bit c).WF := by
  unfold step_mask_bit; split_ifs <;> exact h

theorem step_payload_len_wf (c : Core) (h : c.WF) : (step_payload_len c).WF := by
  unfold step_payload_len; dsimp only; split_ifs with hc h3 h4
  · exact h
  all_goals
    push_neg at hc
    obtain ⟨hw1, hw2⟩ := h
    unfold WF remaining at *
    dsimp only
    exact ⟨by omega, hw2⟩

theorem step_ext_len_16_wf (c : Core) (h : c.WF) : (step_ext_len_16 c).WF := by
  unfold step_ext_len_16; split_ifs with hc
  · exact h
  all_goals
    push_neg at hc
    obtain ⟨hw1, hw2⟩ := h
    unfold WF remaining at *
    dsimp only
    exact ⟨by omega, hw2⟩

theorem step_ext_len_64_wf (c : Core) (h : c.WF) : (step_ext_len_64 c).WF := by
  unfold step_ext_len_64; split_ifs with hc
  · exact h
  all_goals
    push_neg at hc
    obtain ⟨hw1, hw2⟩ := h
    unfold WF remaining at *
    dsimp only
    exact ⟨by omega, hw2⟩

theorem step_masking_key_wf (c : Core) (h : c.WF) : (step_masking_key c).WF := by
  unfold step_masking_key; split_ifs with hc
  · exact h
  · push_neg at hc
    obtain ⟨hw1, hw2⟩ := h
    unfold WF remaining at *
    dsimp only
    exact ⟨by omega, hw2⟩

theorem step_payload_data_wf (c : Core) (h : c.WF) : (step_payload_data c).WF := by
  unfold step_payload_data; split_ifs with hc h3
  · exact h
  · exact h
  · push_neg at hc
    obtain ⟨hw1, hw2⟩ := h
    unfold WF remaining at *
    dsimp only
    exact ⟨by omega, hw2⟩

theorem steps_wf (c : Core) (h : c.WF) : (steps c).WF := by
  unfold steps
  exact step_payload_data_wf _ (step_masking_key_wf _ (step_ext_len_64_wf _
    (step_ext_len_16_wf _ (step_payload_len_wf _ (step_mask_bit_wf _
      (step_opcode_wf _ (step_fin_bit_wf _ h)))))))

theorem app_wf (c : Core) (e : List Nat) (h : c.WF) : (c.app e).WF := by
  obtain ⟨h1, h2⟩ := h
  unfold WF app
  dsimp only
  constructor
  · omega
  · simp [h2]

theorem app_stage (c : Core) (e : List Nat) : (c.app e).parse_stage = c.parse_stage := rfl

theorem byteAt_app (c : Core) (e : List Nat) (k : Nat) (h : c.ptr + k < c.bs.length) :
    (c.app e).byteAt k = c.byteAt k := by
  unfold byteAt app
  dsimp only
  exact List.getD_append c.bs e 0 (c.ptr + k) h

/-! ### Appending bytes commutes with a step that can already fire -/

theorem step_fin_bit_commute (c : Core) (e : List Nat) (hwf : c.WF)
    (h1 : c.parse_stage = .FIN_BIT) (h2 : ¬ c.remaining = 0) :
    step_fin_bit (c.app e) = (step_fin_bit c).app e := by
  obtain ⟨hw1, hw2⟩ := hwf
  unfold remaining at h2
  have ha2 : ¬ (c.app e).remaining = 0 := by unfold remaining app; dsimp only; omega
  rw [step_fin_bit_fired (c.app e) h1 ha2, step_fin_bit_fired c h1 h2,
      byteAt_app c e 0 (by omega)]
  rfl

theorem step_opcode_commute (c : Core) (e : List Nat) (hwf : c.WF)
    (h1 : c.parse_stage = .OPCODE) (h2 : ¬ c.remaining = 0) :
    step_opcode (c.app e) = (step_opcode c).app e := by
  obtain ⟨hw1, hw2⟩ := hwf
  unfold remaining at h2
  have ha2 : ¬ (c.app e).remaining = 0 := by unfold remaining app; dsimp only; omega
  rw [step_opcode_fired (c.app e) h1 ha2, step_opcode_fired c h1 h2,
      byteAt_app c e 0 (by omega)]
  rfl

theorem step_mask_bit_commute (c : Core) (e : List Nat) (hwf : c.WF)
    (h1 : c.parse_stage = .MASK_BIT) (h2 : ¬ c.remaining = 0) :
    step_mask_bit (c.app e) = (step_mask_bit c).app e := by
  obtain ⟨hw1, hw2⟩ := hwf
  unfold remaining at h2
  have ha2 : ¬ (c.app e).remaining = 0 := by unfold remaining app; dsimp only; omega
  rw [step_mask_bit_fired (c.app e) h1 ha2, step_mask_bit_fired c h1 h2,
      byteAt_app c e 0 (by omega)]
  rfl

theorem step_payload_len_commute (c : Core) (e : List Nat) (hwf : c.WF)
    (h1 : c.parse_stage = .PAYLOAD_LEN) (h2 : ¬ c.remaining = 0) :
    step_payload_len (c.app e) = (step_payload_len c).app e := by
  obtain ⟨hw1, hw2⟩ := hwf
  unfold remaining at h2
  have ha2 : ¬ (c.app e).remaining = 0 := by unfold remaining app; dsimp only; omega
  have hb : (c.app e).byteAt 0 = c.byteAt 0 := byteAt_app c e 0 (by omega)
  by_cases h3 : c.byteAt 0 &&& 0x7F = 126
  · rw [step_payload_len_fired_16 (c.app e) h1 ha2 (by rw [hb]; exact h3),
        step_payload_len_fired_16 c h1 h2 h3]
    rfl
  · by_cases h4 : c.byteAt 0 &&& 0x7F = 127
    · rw [step_payload_len_fired_64 (c.app e) h1 ha2 (by rw [hb]; exact h4),
          step_payload_len_fired_64 c h1 h2 h4]
      rfl
    · rw [step_payload_len_fired_small (c.app e) h1 ha2 (by rw [hb]; exact h3)
            (by rw [hb]; exact h4),
          step_payload_len_fired_small c h1 h2 h3 h4, hb]
      rfl

theorem step_ext_len_16_commute (c : Core) (e : List Nat) (hwf : c.WF)
    (h1 : c.parse_stage = .EXTENDED_PAYLOAD_LEN_16) (h2 : ¬ c.remaining < 2) :
    step_ext_len_16 (c.app e) = (step_ext_len_16 c).app e := by
  obtain ⟨hw1, hw2⟩ := hwf
  unfold remaining at h2
  have ha2 : ¬ (c.app e).remaining < 2 := by unfold remaining app; dsimp only; omega
  rw [step_ext_len_16_fired (c.app e) h1 ha2, step_ext_len_16_fired c h1 h2,
      byteAt_app c e 0 (by omega), byteAt_app c e 1 (by omega)]
  rfl

theorem step_ext_len_64_commute (c : Core) (e : List Nat) (hwf : c.WF)
    (h1 : c.parse_stage = .EXTENDED_PAYLOAD_LEN_64) (h2 : ¬ c.remaining < 8) :
    step_ext_len_64 (c.app e) = (step_ext_len_64 c).app e := by
  obtain ⟨hw1, hw2⟩ := hwf
  unfold remaining at h2
  have ha2 : ¬ (c.app e).remaining < 8 := by unfold remaining app; dsimp only; omega
  rw [step_ext_len_64_fired (c.app e) h1 ha2, step_ext_len_64_fired c h1 h2,
      byteAt_app c e 0 (by omega), byteAt_app c e 1 (by omega),
      byteAt_app c e 2 (by omega), byteAt_app c e 3 (by omega),
      byteAt_app c e 4 (by omega), byteAt_app c e 5 (by omega),
      byteAt_app c e 6 (by omega), byteAt_app c e 7 (by omega)]
  rfl

theorem step_masking_key_commute (c : Core) (e : List Nat) (hwf : c.WF)
    (h1 : c.parse_stage = .MASKING_KEY) (h2 : ¬ c.remaining < 4) :
    step_masking_key (c.app e) = (step_masking_key c).app e := by
  obtain ⟨hw1, hw2⟩ := hwf
  unfold remaining at h2
  have ha2 : ¬ (c.app e).remaining < 4 := by unfold remaining app; dsimp only; omega
  rw [step_masking_key_fired (c.app e) h1 ha2, step_masking_key_fired c h1 h2,
      byteAt_app c e 0 (by omega), byteAt_app c e 1 (by omega),
      byteAt_app c e 2 (by omega), byteAt_app c e 3 (by omega)]
  rfl

theorem step_payload_data_commute (c : Core) (e : List Nat) (hwf : c.WF)
    (h1 : c.parse_stage = .PAYLOAD_DATA) (h2 : ¬ c.remaining < c.payload_len) :
    step_payload_data (c.app e) = (step_payload_data c).app e := by
  obtain ⟨hw1, hw2⟩ := hwf
  unfold remaining at h2
  have ha2 : ¬ (c.app e).remaining < (c.app e).payload_len := by
    unfold remaining app; dsimp only; omega
  by_cases h3 : c.payload_len = 0
  · rw [step_payload_data_fired_zero (c.app e) h1 ha2 h3,
        step_payload_data_fired_zero c h1 h2 h3]
    rfl
  · have hslice : (((c.app e).bs.drop (c.app e).ptr).take (c.app e).payload_len)
        = ((c.bs.drop c.ptr).take c.payload_len) := by
      show (((c.bs ++ e).drop c.ptr).take c.payload_len) = _
      rw [List.drop_append_of_le_length (by omega),
          List.take_append_of_le_length (by simp; omega)]
    rw [step_payload_data_fired_pos (c.app e) h1 ha2 h3,
        step_payload_data_fired_pos c h1 h2 h3, hslice]
    rfl

/-! ### Where a firing step can land -/

theorem step_payload_len_stage_late (c : Core) (h1 : c.parse_stage = .PAYLOAD_LEN)
    (h2 : ¬ c.remaining = 0) :
    (step_payload_len c).parse_stage = .EXTENDED_PAYLOAD_LEN_16 ∨
    (step_payload_len c).parse_stage = .EXTENDED_PAYLOAD_LEN_64 ∨
    (step_payload_len c).parse_stage = .MASKING_KEY ∨
    (step_payload_len c).parse_stage = .PAYLOAD_DATA := by
  by_cases h3 : c.byteAt 0 &&& 0x7F = 126
  · exact Or.inl (by rw [step_payload_len_fired_16 c h1 h2 h3])
  by_cases h4 : c.byteAt 0 &&& 0x7F = 127
  · exact Or.inr (Or.inl (by rw [step_payload_len_fired_64 c h1 h2 h4]))
  by_cases hb : c.frame.mask
  · exact Or.inr (Or.inr (Or.inl
      (by rw [step_payload_len_fired_small c h1 h2 h3 h4]; simp [hb])))
  · exact Or.inr (Or.inr (Or.inr
      (by rw [step_payload_len_fired_small c h1 h2 h3 h4]; simp [hb])))

theorem step_ext_len_16_stage_late (c : Core)
    (h1 : c.parse_stage = .EXTENDED_PAYLOAD_LEN_16) (h2 : ¬ c.remaining < 2) :
    (step_ext_len_16 c).parse_stage = .MASKING_KEY ∨
    (step_ext_len_16 c).parse_stage = .PAYLOAD_DATA := by
  by_cases hb : c.frame.mask
  · exact Or.inl (by rw [step_ext_len_16_fired c h1 h2]; simp [hb])
  · exact Or.inr (by rw [step_ext_len_16_fired c h1 h2]; simp [hb])

theorem step_ext_len_64_stage_late (c : Core)
    (h1 : c.parse_stage = .EXTENDED_PAYLOAD_LEN_64) (h2 : ¬ c.remaining < 8) :
    (step_ext_len_64 c).parse_stage = .MASKING_KEY ∨
    (step_ext_len_64 c).parse_stage = .PAYLOAD_DATA := by
  by_cases hb : c.frame.mask
  · exact Or.inl (by rw [step_ext_len_64_fired c h1 h2]; simp [hb])
  · exact Or.inr (by rw [step_ext_len_64_fired c h1 h2]; simp [hb])

theorem step_payload_data_stage_done (c : Core) (h1 : c.parse_stage = .PAYLOAD_DATA)
    (h2 : ¬ c.remaining < c.payload_len) :
    (step_payload_data c).parse_stage = .DONE := by
  by_cases h3 : c.payload_len = 0
  · rw [step_payload_data_fired_zero c h1 h2 h3]
  · rw [step_payload_data_fired_pos c h1 h2 h3]

/-! ### A step that already fired is absorbed by the full chain -/

theorem absorb_fin_bit (c : Core) (h1 : c.parse_stage = .FIN_BIT)
    (h2 : ¬ c.remaining = 0) : steps (step_fin_bit c) = steps c := by
  unfold steps
  rw [step_fin_bit_noop (step_fin_bit c)
      (Or.inl (by simp [step_fin_bit_fired c h1 h2]))]

theorem absorb_opcode (c : Core) (h1 : c.parse_stage = .OPCODE)
    (h2 : ¬ c.remaining = 0) : steps (step_opcode c) = steps c := by
  unfold steps
  rw [step_fin_bit_noop c (Or.inl (by simp [h1])),
      step_fin_bit_noop (step_opcode c)
        (Or.inl (by simp [step_opcode_fired c h1 h2])),
      step_opcode_noop (step_opcode c)
        (Or.inl (by simp [step_opcode_fired c h1 h2]))]

theorem absorb_mask_bit (c : Core) (h1 : c.parse_stage = .MASK_BIT)
    (h2 : ¬ c.remaining = 0) : steps (step_mask_bit c) = steps c := by
  unfold steps
  rw [step_fin_bit_noop c (Or.inl (by simp [h1])),
      step_opcode_noop c (Or.inl (by simp [h1])),
      step_fin_bit_noop (step_mask_bit c)
        (Or.inl (by simp [step_mask_bit_fired c h1 h2])),
      step_opcode_noop (step_mask_bit c)
        (Or.inl (by simp [step_mask_bit_fired c h1 h2])),
      step_mask_bit_noop (step_mask_bit c)
        (Or.inl (by simp [step_mask_bit_fired c h1 h2]))]

theorem absorb_payload_len (c : Core) (h1 : c.parse_stage = .PAYLOAD_LEN)
    (h2 : ¬ c.remaining = 0) : steps (step_payload_len c) = steps c := by
  have hlate := step_payload_len_stage_late c h1 h2
  unfold steps
  rw [step_fin_bit_noop c (Or.inl (by simp [h1])),
      step_opcode_noop c (Or.inl (by simp [h1])),
      step_mask_bit_noop c (Or.inl (by simp [h1])),
      step_fin_bit_noop (step_payload_len c)
        (Or.inl (by rcases hlate with h | h | h | h <;> simp [h])),
      step_opcode_noop (step_payload_len c)
        (Or.inl (by rcases hlate with h | h | h | h <;> simp [h])),
      step_mask_bit_noop (step_payload_len c)
        (Or.inl (by rcases hlate with h | h | h | h <;> simp [h])),
      step_payload_len_noop (step_payload_len c)
        (Or.inl (by rcases hlate with h | h | h | h <;> simp [h]))]

theorem absorb_ext_len_16 (c : Core) (h1 : c.parse_stage = .EXTENDED_PAYLOAD_LEN_16)
    (h2 : ¬ c.remaining < 2) : steps (step_ext_len_16 c) = steps c := by
  have hlate := step_ext_len_16_stage_late c h1 h2
  unfold steps
  rw [step_fin_bit_noop c (Or.inl (by simp [h1])),
      step_opcode_noop c (Or.inl (by simp [h1])),
      step_mask_bit_noop c (Or.inl (by simp [h1])),
      step_payload_len_noop c (Or.inl (by simp [h1])),
      step_fin_bit_noop (step_ext_len_16 c)
        (Or.inl (by rcases hlate with h | h <;> simp [h])),
      step_opcode_noop (step_ext_len_16 c)
        (Or.inl (by rcases hlate with h | h <;> simp [h])),
      step_mask_bit_noop (step_ext_len_16 c)
        (Or.inl (by rcases hlate with h | h <;> simp [h])),
      step_payload_len_noop (step_ext_len_16 c)
        (Or.inl (by rcases hlate with h | h <;> simp [h])),
      step_ext_len_16_noop (step_ext_len_16 c)
        (Or.inl (by rcases hlate with h | h <;> simp [h]))]

theorem absorb_ext_len_64 (c : Core) (h1 : c.parse_stage = .EXTENDED_PAYLOAD_LEN_64)
    (h2 : ¬ c.remaining < 8) : steps (step_ext_len_64 c) = steps c := by
  have hlate := step_ext_len_64_stage_late c h1 h2
  unfold steps
  rw [step_fin_bit_noop c (Or.inl (by simp [h1])),
      step_opcode_noop c (Or.inl (by simp [h1])),
      step_mask_bit_noop c (Or.inl (by simp [h1])),
      step_payload_len_noop c (Or.inl (by simp [h1])),
      step_ext_len_16_noop c (Or.inl (by simp [h1])),
      step_fin_bit_noop (step_ext_len_64 c)
        (Or.inl (by rcases hlate with h | h <;> simp [h])),
      step_opcode_noop (step_ext_len_64 c)
        (Or.inl (by rcases hlate with h | h <;> simp [h])),
      step_mask_bit_noop (step_ext_len_64 c)
        (Or.inl (by rcases hlate with h | h <;> simp [h])),
      step_payload_len_noop (step_ext_len_64 c)
        (Or.inl (by rcases hlate with h | h <;> simp [h])),
      step_ext_len_16_noop (step_ext_len_64 c)
        (Or.inl (by rcases hlate with h | h <;> simp [h])),
      step_ext_len_64_noop (step_ext_len_64 c)
        (Or.inl (by rcases hlate with h | h <;> simp [h]))]

theorem absorb_masking_key (c : Core) (h1 : c.parse_stage = .MASKING_KEY)
    (h2 : ¬ c.remaining < 4) : steps (step_masking_key c) = steps c := by
  have hdone : (step_masking_key c).parse_stage = .PAYLOAD_DATA := by
    rw [step_masking_key_fired c h1 h2]
  unfold steps
  rw [step_fin_bit_noop c (Or.inl (by simp [h1])),
      step_opcode_noop c (Or.inl (by simp [h1])),
      step_mask_bit_noop c (Or.inl (by simp [h1])),
      step_payload_len_noop c (Or.inl (by simp [h1])),
      step_ext_len_16_noop c (Or.inl (by simp [h1])),
      step_ext_len_64_noop c (Or.inl (by simp [h1])),
      step_fin_bit_noop (step_masking_key c) (Or.inl (by simp [hdone])),
      step_opcode_noop (step_masking_key c) (Or.inl (by simp [hdone])),
      step_mask_bit_noop (step_masking_key c) (Or.inl (by simp [hdone])),
      step_payload_len_noop (step_masking_key c) (Or.inl (by simp [hdone])),
      step_ext_len_16_noop (step_masking_key c) (Or.inl (by simp [hdone])),
      step_ext_len_64_noop (step_masking_key c) (Or.inl (by simp [hdone])),
      step_masking_key_noop (step_masking_key c) (Or.inl (by simp [hdone]))]

theorem absorb_payload_data (c : Core) (h1 : c.parse_stage = .PAYLOAD_DATA)
    (h2 : ¬ c.remaining < c.payload_len) : steps (step_payload_data c) = steps c := by
  have hdone := step_payload_data_stage_done c h1 h2
  unfold steps
  rw [step_fin_bit_noop c (Or.inl (by simp [h1])),
      step_opcode_noop c (Or.inl (by simp [h1])),
      step_mask_bit_noop c (Or.inl (by simp [h1])),
      step_payload_len_noop c (Or.inl (by simp [h1])),
      step_ext_len_16_noop c (Or.inl (by simp [h1])),
      step_ext_len_64_noop c (Or.inl (by simp [h1])),
      step_masking_key_noop c (Or.inl (by simp [h1])),
      step_fin_bit_noop (step_payload_data c) (Or.inl (by simp [hdone])),
      step_opcode_noop (step_payload_data c) (Or.inl (by simp [hdone])),
      step_mask_bit_noop (step_payload_data c) (Or.inl (by simp [hdone])),
      step_payload_len_noop (step_payload_data c) (Or.inl (by simp [hdone])),
      step_ext_len_16_noop (step_payload_data c) (Or.inl (by simp [hdone])),
      step_ext_len_64_noop (step_payload_data c) (Or.inl (by simp [hdone])),
      step_masking_key_noop (step_payload_data c) (Or.inl (by simp [hdone])),
      step_payload_data_noop (step_payload_data c) (Or.inl (by simp [hdone]))]

/-! ### One step then append is the same as append then the full chain -/

theorem key_fin_bit (c : Core) (e : List Nat) (hwf : c.WF) :
    steps ((step_fin_bit c).app e) = steps (c.app e) := by
  by_cases h1 : c.parse_stage = .FIN_BIT
  · by_cases h2 : c.remaining = 0
    · rw [step_fin_bit_noop c (Or.inr h2)]
    · rw [← step_fin_bit_commute c e hwf h1 h2]
      exact absorb_fin_bit (c.app e) h1
        (by obtain ⟨hw1, hw2⟩ := hwf; unfold remaining app at *; dsimp only; omega)
  · rw [step_fin_bit_noop c (Or.inl h1)]

theorem key_opcode (c : Core) (e : List Nat) (hwf : c.WF) :
    steps ((step_opcode c).app e) = steps (c.app e) := by
  by_cases h1 : c.parse_stage = .OPCODE
  · by_cases h2 : c.remaining = 0
    · rw [step_opcode_noop c (Or.inr h2)]
    · rw [← step_opcode_commute c e hwf h1 h2]
      exact absorb_opcode (c.app e) h1
        (by obtain ⟨hw1, hw2⟩ := hwf; unfold remaining app at *; dsimp only; omega)
  · rw [step_opcode_noop c (Or.inl h1)]

theorem key_mask_bit (c : Core) (e : List Nat) (hwf : c.WF) :
    steps ((step_mask_bit c).app e) = steps (c.app e) := by
  by_cases h1 : c.parse_stage = .MASK_BIT
  · by_cases h2 : c.remaining = 0
    · rw [step_mask_bit_noop c (Or.inr h2)]
    · rw [← step_mask_bit_commute c e hwf h1 h2]
      exact absorb_mask_bit (c.app e) h1
        (by obtain ⟨hw1, hw2⟩ := hwf; unfold remaining app at *; dsimp only; omega)
  · rw [step_mask_bit_noop c (Or.inl h1)]

theorem key_payload_len (c : Core) (e : List Nat) (hwf : c.WF) :
    steps ((step_payload_len c).app e) = steps (c.app e) := by
  by_cases h1 : c.parse_stage = .PAYLOAD_LEN
  · by_cases h2 : c.remaining = 0
    · rw [step_payload_len_noop c (Or.inr h2)]
    · rw [← step_payload_len_commute c e hwf h1 h2]
      exact absorb_payload_len (c.app e) h1
        (by obtain ⟨hw1, hw2⟩ := hwf; unfold remaining app at *; dsimp only; omega)
  · rw [step_payload_len_noop c (Or.inl h1)]

theorem key_ext_len_16 (c : Core) (e : List Nat) (hwf : c.WF) :
    steps ((step_ext_len_16 c).app e) = steps (c.app e) := by
  by_cases h1 : c.parse_stage = .EXTENDED_PAYLOAD_LEN_16
  · by_cases h2 : c.remaining < 2
    · rw [step_ext_len_16_noop c (Or.inr h2)]
    · rw [← step_ext_len_16_commute c e hwf h1 h2]
      exact absorb_ext_len_16 (c.app e) h1
        (by obtain ⟨hw1, hw2⟩ := hwf; unfold remaining app at *; dsimp only; omega)
  · rw [step_ext_len_16_noop c (Or.inl h1)]

theorem key_ext_len_64 (c : Core) (e : List Nat) (hwf : c.WF) :
    steps ((step_ext_len_64 c).app e) = steps (c.app e) := by
  by_cases h1 : c.parse_stage = .EXTENDED_PAYLOAD_LEN_64
  · by_cases h2 : c.remaining < 8
    · rw [step_ext_len_64_noop c (Or.inr h2)]
    · rw [← step_ext_len_64_commute c e hwf h1 h2]
      exact absorb_ext_len_64 (c.app e) h1
        (by obtain ⟨hw1, hw2⟩ := hwf; unfold remaining app at *; dsimp only; omega)
  · rw [step_ext_len_64_noop c (Or.inl h1)]

theorem key_masking_key (c : Core) (e : List Nat) (hwf : c.WF) :
    steps ((step_masking_key c).app e) = steps (c.app e) := by
  by_cases h1 : c.parse_stage = .MASKING_KEY
  · by_cases h2 : c.remaining < 4
    · rw [step_masking_key_noop c (Or.inr h2)]
    · rw [← step_masking_key_commute c e hwf h1 h2]
      exact absorb_masking_key (c.app e) h1
        (by obtain ⟨hw1, hw2⟩ := hwf; unfold remaining app at *; dsimp only; omega)
  · rw [step_masking_key_noop c (Or.inl h1)]

theorem key_payload_data (c : Core) (e : List Nat) (hwf : c.WF) :
    steps ((step_payload_data c).app e) = steps (c.app e) := by
  by_cases h1 : c.parse_stage = .PAYLOAD_DATA
  · by_cases h2 : c.remaining < c.payload_len
    · rw [step_payload_data_noop c (Or.inr h2)]
    · rw [← step_payload_data_commute c e hwf h1 h2]
      exact absorb_payload_data (c.app e) h1
        (by obtain ⟨hw1, hw2⟩ := hwf; unfold remaining app at *; dsimp only; omega)
  · rw [step_payload_data_noop c (Or.inl h1)]

/-- Chunk invariance at the core level: running the chain early, appending
more bytes, and running it again gives the same state as appending first and
running once. -/
theorem steps_app_comm (c : Core) (e : List Nat) (hwf : c.WF) :
    steps ((steps c).app e) = steps (c.app e) := by
  have h : steps c = step_payload_data (step_masking_key (step_ext_len_64
      (step_ext_len_16 (step_payload_len (step_mask_bit (step_opcode
        (step_fin_bit c))))))) := rfl
  have w1 : (step_fin_bit c).WF := step_fin_bit_wf c hwf
  have w2 : (step_opcode (step_fin_bit c)).WF := step_opcode_wf _ w1
  have w3 : (step_mask_bit (step_opcode (step_fin_bit c))).WF := step_mask_bit_wf _ w2
  have w4 : (step_payload_len (step_mask_bit (step_opcode (step_fin_bit c)))).WF :=
    step_payload_len_wf _ w3
  have w5 : (step_ext_len_16 (step_payload_len (step_mask_bit (step_opcode
      (step_fin_bit c))))).WF := step_ext_len_16_wf _ w4
  have w6 : (step_ext_len_64 (step_ext_len_16 (step_payload_len (step_mask_bit
      (step_opcode (step_fin_bit c)))))).WF := step_ext_len_64_wf _ w5
  have w7 : (step_masking_key (step_ext_len_64 (step_ext_len_16 (step_payload_len
      (step_mask_bit (step_opcode (step_fin_bit c))))))).WF := step_masking_key_wf _ w6
  rw [h, key_payload_data _ e w7, key_masking_key _ e w6, key_ext_len_64 _ e w5,
      key_ext_len_16 _ e w4, key_payload_len _ e w3, key_mask_bit _ e w2,
      key_opcode _ e w1, key_fin_bit c e hwf]

/-- After completion every step is a no-op. -/
theorem steps_done (c : Core) (h : c.parse_stage = .DONE) : steps c = c := by
  unfold steps
  rw [step_fin_bit_noop c (Or.inl (by simp [h])),
      step_opcode_noop c (Or.inl (by simp [h])),
      step_mask_bit_noop c (Or.inl (by simp [h])),
      step_payload_len_noop c (Or.inl (by simp [h])),
      step_ext_len_16_noop c (Or.inl (by simp [h])),
      step_ext_len_64_noop c (Or.inl (by simp [h])),
      step_masking_key_noop c (Or.inl (by simp [h])),
      step_payload_data_noop c (Or.inl (by simp [h]))]

end Core


theorem Core.ofBytes_wf (bs : List Nat) : (Core.ofBytes bs).WF := by
  exact ⟨Nat.zero_le _, rfl⟩

theorem Core.ofBytes_append (b e : List Nat) :
    Core.ofBytes (b ++ e) = (Core.ofBytes b).app e := by
  unfold Core.ofBytes Core.app
  simp

theorem Core.runBytes_append (b e : List Nat) :
    Core.runBytes (b ++ e) = Core.steps ((Core.runBytes b).app e) := by
  unfold Core.runBytes
  rw [Core.ofBytes_append, ← Core.steps_app_comm _ _ (Core.ofBytes_wf b)]

theorem Core.runBytes_wf (bs : List Nat) : (Core.runBytes bs).WF :=
  Core.steps_wf _ (Core.ofBytes_wf bs)

theorem Core.runBytes_sz (bs : List Nat) : (Core.runBytes bs).sz = bs.length :=
  (Core.steps_sz_bs (Core.ofBytes bs)).1

theorem Core.runBytes_ptr_le (bs : List Nat) : (Core.runBytes bs).ptr ≤ bs.length := by
  have h := (Core.runBytes_wf bs).1
  rw [Core.runBytes_sz] at h
  exact h

/-- Once a prefix completes a frame, appending more bytes changes nothing of
the parsed result. -/
theorem Core.app_ptr (c : Core) (e : List Nat) : (c.app e).ptr = c.ptr := rfl

theorem Core.app_remaining (c : Core) (e : List Nat) :
    (c.app e).remaining = c.sz + e.length - c.ptr := rfl

theorem Core.app_frame (c : Core) (e : List Nat) : (c.app e).frame = c.frame := rfl

theorem Core.runBytes_append_of_done (b e : List Nat)
    (h : (Core.runBytes b).parse_stage = .DONE) :
    Core.runBytes (b ++ e) = (Core.runBytes b).app e := by
  rw [Core.runBytes_append]
  exact Core.steps_done ((Core.runBytes b).app e) (by rw [Core.app_stage]; exact h)

/-- If the whole sequence completes exactly at its end, no proper prefix has
already completed. -/
theorem Core.not_done_of_proper_prefix (p r B : List Nat) (hB : p ++ r = B)
    (hr : r ≠ []) (hptr : (Core.runBytes B).ptr = B.length) :
    (Core.runBytes p).parse_stage ≠ .DONE := by
  intro hd
  have hext : Core.runBytes B = (Core.runBytes p).app r := by
    rw [← hB]; exact Core.runBytes_append_of_done p r hd
  have h1 : (Core.runBytes B).ptr = (Core.runBytes p).ptr := by
    rw [hext, Core.app_ptr]
  have h2 : (Core.runBytes p).ptr ≤ p.length := Core.runBytes_ptr_le p
  have h3 : B.length = p.length + r.length := by rw [← hB]; simp
  have h4 : r.length ≠ 0 := by
    intro h0; exact hr (List.eq_nil_of_length_eq_zero h0)
  omega

/-! ### Glue between parser states and their cores -/

theorem wfb_init : (FrameParser.init).frame_buffer.WF := FrameBuffer.wf_init 4096

theorem core_init : core FrameParser.init = Core.ofBytes [] := rfl

theorem core_append_chunk (s : FrameParser) (view : List Nat)
    (h : s.frame_buffer.WF) :
    core (s.append_chunk view) = (core s).app (view.map (· % 256)) := by
  unfold core append_chunk Core.app bytes FrameBuffer.size
  dsimp only
  rw [FrameBuffer.ptr_push_back_view,
      FrameBuffer.contents_push_back_view s.frame_buffer view h]
  simp

theorem core_wf (s : FrameParser) (h1 : s.ptr ≤ s.frame_buffer.size)
    (h2 : s.frame_buffer.WF) : (core s).WF := by
  refine ⟨h1, ?_⟩
  show s.frame_buffer.size = s.frame_buffer.contents.length
  rw [FrameBuffer.length_contents s.frame_buffer h2]
  rfl

theorem map_mod_mod (l : List Nat) :
    (l.map (· % 256)).map (· % 256) = l.map (· % 256) := by
  have h : ∀ x : Nat, x % 256 % 256 = x % 256 := fun x => Nat.mod_mod_of_dvd x dvd_rfl
  induction l with
  | nil => rfl
  | cons a t ih => simp_all [h]

theorem update_eq_of_not_done (s : FrameParser) (view : List Nat)
    (h1 : ¬ s.parse_stage = ParseStage.DONE) (h2 : view.length ≠ 0)
    (h3 : s.ptr ≤ s.frame_buffer.size) :
    s.update view = (s.append_chunk view).parse := by
  unfold update
  dsimp only
  rw [if_neg h1, if_pos h2, if_neg ?hrem]
  case hrem =>
    unfold remaining append_chunk FrameBuffer.size
    dsimp only
    rw [FrameBuffer.ptr_push_back_view]
    unfold FrameBuffer.size at h3
    omega

theorem update_of_done_empty (s : FrameParser) (h1 : s.parse_stage = ParseStage.DONE) :
    s.update [] = (if s.reset.remaining = 0 then (s.reset, none) else s.reset.parse) := by
  unfold update
  dsimp only
  rw [if_pos h1, if_neg (by simp), if_neg (by unfold reset; dsimp only; simp)]

theorem reset_frame_buffer_wf (s : FrameParser) : (s.reset).frame_buffer.WF := by
  unfold reset
  dsimp only
  split_ifs
  · exact FrameBuffer.wf_push_back_view _ _
  · exact FrameBuffer.wf_reset _

theorem core_reset (s : FrameParser) (_h1 : s.ptr ≤ s.frame_buffer.size)
    (h2 : s.frame_buffer.WF) :
    core (s.reset) = Core.mk .FIN_BIT Frame.default 0 0 (s.frame_buffer.size - s.ptr)
      (((s.bytes).drop s.ptr).map (· % 256)) := by
  have hbl : s.bytes.length = s.frame_buffer.size :=
    FrameBuffer.length_contents s.frame_buffer h2
  have hprev : (s.frame_buffer.data.drop s.ptr).take s.remaining
      = (s.bytes).drop s.ptr := by
    unfold bytes FrameBuffer.contents remaining FrameBuffer.size
    exact (List.drop_take s.frame_buffer.ptr s.ptr s.frame_buffer.data).symm
  have hsz : (s.reset).frame_buffer.size = s.frame_buffer.size - s.ptr := by
    unfold reset
    dsimp only
    split_ifs with hr
    · unfold FrameBuffer.size
      rw [FrameBuffer.ptr_push_back_view, hprev]
      unfold remaining FrameBuffer.size at *
      simp only [FrameBuffer.ptr_reset, Nat.zero_add, List.length_map]
      rw [List.length_drop, hbl]
    · unfold remaining at hr
      unfold FrameBuffer.size at *
      simp only [FrameBuffer.ptr_reset]
      omega
  have hbs : (s.reset).frame_buffer.contents = ((s.bytes).drop s.ptr).map (· % 256) := by
    unfold reset
    dsimp only
    split_ifs with hr
    · rw [FrameBuffer.contents_push_back_view _ _ (FrameBuffer.wf_reset _),
          FrameBuffer.contents_reset, hprev]
      rfl
    · unfold remaining at hr
      rw [FrameBuffer.contents_reset]
      have hdrop : (s.bytes).drop s.ptr = [] := by
        apply List.drop_eq_nil_of_le
        omega
      rw [hdrop]
      rfl
  unfold core
  show Core.mk (s.reset).parse_stage (s.reset).frame (s.reset).payload_len (s.reset).ptr
      (s.reset).frame_buffer.size (s.reset).bytes = _
  rw [hsz]
  rw [show (s.reset).bytes = (s.reset).frame_buffer.contents from rfl, hbs]
  rfl

theorem inv_init : Inv FrameParser.init := ⟨Nat.le.refl, wfb_init⟩

theorem inv_reset (s : FrameParser) : Inv (s.reset) := by
  constructor
  · exact Nat.zero_le _
  · exact reset_frame_buffer_wf s

theorem inv_clear (s : FrameParser) : Inv (s.clear) := by
  constructor
  · exact Nat.zero_le _
  · exact FrameBuffer.wf_reset _

theorem inv_append_chunk (s : FrameParser) (bs : List Nat) (h : Inv s) :
    Inv (s.append_chunk bs) := by
  obtain ⟨ha, hb⟩ := h
  constructor
  · show s.ptr ≤ (s.frame_buffer.push_back_view bs).ptr
    rw [FrameBuffer.ptr_push_back_view]
    unfold FrameBuffer.size at ha
    omega
  · exact FrameBuffer.wf_push_back_view _ _

theorem inv_parseSteps (s : FrameParser) (h : Inv s) : Inv (parseSteps s) := by
  obtain ⟨ha, hb⟩ := h
  have hc := Core.steps_wf (core s) (core_wf s ha hb)
  constructor
  · have hp : (parseSteps s).ptr = (Core.steps (core s)).ptr := by
      rw [← core_parseSteps]
      exact (core_ptr (parseSteps s)).symm
    have hs : (Core.steps (core s)).sz = s.frame_buffer.size := (Core.steps_sz_bs _).1
    rw [hp, frame_buffer_parseSteps, ← hs]
    exact hc.1
  · rw [frame_buffer_parseSteps]
    exact hb

theorem inv_update (s : FrameParser) (bs : List Nat) (h : Inv s) :
    Inv (s.update bs).1 := by
  have h0 : Inv (if s.parse_stage = ParseStage.DONE then s.reset else s) := by
    split_ifs
    · exact inv_reset s
    · exact h
  set s0 := if s.parse_stage = ParseStage.DONE then s.reset else s with hs0
  unfold update
  dsimp only
  rw [← hs0]
  by_cases hv : bs.length ≠ 0
  · rw [if_pos hv]
    by_cases hr : (s0.append_chunk bs).remaining = 0
    · rw [if_pos hr]
      exact inv_append_chunk _ _ h0
    · rw [if_neg hr, parse_fst]
      exact inv_parseSteps _ (inv_append_chunk _ _ h0)
  · rw [if_neg hv]
    by_cases hst : s0.parse_stage ≠ ParseStage.FIN_BIT
    · rw [if_pos hst]
      exact h0
    · rw [if_neg hst]
      by_cases hr2 : s0.remaining = 0
      · rw [if_pos hr2]
        exact h0
      · rw [if_neg hr2, parse_fst]
        exact inv_parseSteps _ h0

theorem inv_reach (s : FrameParser) (h : Reach s) : Inv s := by
  induction h with
  | init => exact inv_init
  | update s bs _ ih => exact inv_update s bs ih
  | clear s _ _ => exact inv_clear s

theorem update_init_nil_snd : (FrameParser.init.update []).2 = none := by
  unfold update
  dsimp only
  rw [if_neg (show ¬ FrameParser.init.parse_stage = ParseStage.DONE by decide),
      if_neg (by simp), if_neg (by decide), if_pos (by decide)]

theorem feedChunks_nil (s : FrameParser) : feedChunks s [] = (s, []) := rfl

theorem feedChunks_cons (s : FrameParser) (c : List Nat) (rest : List (List Nat)) :
    (feedChunks s (c :: rest)).2
      = (s.update c).2 :: (feedChunks (s.update c).1 rest).2 := rfl

theorem Core.runBytes_nil : Core.runBytes [] = Core.ofBytes [] := by
  unfold Core.runBytes Core.steps
  rw [Core.step_fin_bit_noop (Core.ofBytes []) (Or.inr rfl),
      Core.step_opcode_noop _ (Or.inl (by decide)),
      Core.step_mask_bit_noop _ (Or.inl (by decide)),
      Core.step_payload_len_noop _ (Or.inl (by decide)),
      Core.step_ext_len_16_noop _ (Or.inl (by decide)),
      Core.step_ext_len_64_noop _ (Or.inl (by decide)),
      Core.step_masking_key_noop _ (Or.inl (by decide)),
      Core.step_payload_data_noop _ (Or.inl (by decide))]

theorem core_append_init (B : List Nat) :
    core (FrameParser.init.append_chunk B) = Core.ofBytes (B.map (· % 256)) := by
  rw [core_append_chunk _ _ wfb_init, core_init]
  unfold Core.ofBytes Core.app
  simp

theorem update_init_eq (B : List Nat) (hB : B ≠ []) :
    FrameParser.init.update B = (FrameParser.init.append_chunk B).parse := by
  apply update_eq_of_not_done
  · decide
  · simpa using hB
  · exact Nat.le.refl

theorem update_init_snd (B : List Nat) (hB : B ≠ []) :
    (FrameParser.init.update B).2
      = (if (Core.runBytes (B.map (· % 256))).parse_stage = ParseStage.DONE
         then some (Core.runBytes (B.map (· % 256))).frame else none) := by
  rw [update_init_eq B hB, parse_snd, core_append_init]
  rfl

theorem update_init_fst (B : List Nat) (hB : B ≠ []) :
    (FrameParser.init.update B).1 = parseSteps (FrameParser.init.append_chunk B) := by
  rw [update_init_eq B hB, parse_fst]

theorem core_update_init_fst (B : List Nat) (hB : B ≠ []) :
    core (FrameParser.init.update B).1 = Core.runBytes (B.map (· % 256)) := by
  rw [update_init_fst B hB, core_parseSteps, core_append_init]
  rfl

theorem append_init_size (B : List Nat) :
    (FrameParser.init.append_chunk B).frame_buffer.size = B.length := by
  show (FrameParser.init.frame_buffer.push_back_view B).ptr = B.length
  rw [FrameBuffer.ptr_push_back_view]
  show 0 + B.length = B.length
  omega

theorem update_init_done_facts (B : List Nat) (t : FrameParser) (F : Frame)
    (h : FrameParser.init.update B = (t, some F)) :
    (Core.runBytes (B.map (· % 256))).parse_stage = ParseStage.DONE
    ∧ (Core.runBytes (B.map (· % 256))).frame = F
    ∧ core t = Core.runBytes (B.map (· % 256))
    ∧ t.frame_buffer.size = B.length
    ∧ t.frame_buffer.WF
    ∧ B ≠ [] := by
  have hB : B ≠ [] := by
    intro h0
    subst h0
    have h2 := congrArg Prod.snd h
    rw [update_init_nil_snd] at h2
    exact Option.noConfusion h2
  have h1 : (FrameParser.init.update B).1 = t := congrArg Prod.fst h
  have h2 := congrArg Prod.snd h
  rw [update_init_snd B hB] at h2
  dsimp only at h2
  by_cases hD : (Core.runBytes (B.map (· % 256))).parse_stage = ParseStage.DONE
  · rw [if_pos hD] at h2
    refine ⟨hD, Option.some.inj h2, ?_, ?_, ?_, hB⟩
    · rw [← h1]
      exact core_update_init_fst B hB
    · rw [← h1, update_init_fst B hB, frame_buffer_parseSteps, append_init_size]
    · rw [← h1, update_init_fst B hB, frame_buffer_parseSteps]
      exact FrameBuffer.wf_push_back_view _ _
  · rw [if_neg hD] at h2
    exact Option.noConfusion h2

theorem feed_step (u : FrameParser) (p' c : List Nat) (hInv : Inv u)
    (hcore : core u = Core.runBytes p')
    (hnd : ¬ (Core.runBytes p').parse_stage = ParseStage.DONE) (hc : c ≠ []) :
    (u.update c).2
      = (if (Core.runBytes (p' ++ c.map (· % 256))).parse_stage = ParseStage.DONE
         then some (Core.runBytes (p' ++ c.map (· % 256))).frame else none)
    ∧ core (u.update c).1 = Core.runBytes (p' ++ c.map (· % 256)) := by
  have hstage : ¬ u.parse_stage = ParseStage.DONE := by
    rw [← core_stage, hcore]
    exact hnd
  have heq := update_eq_of_not_done u c hstage (by simpa using hc) hInv.1
  have hca : core (u.append_chunk c) = (Core.runBytes p').app (c.map (· % 256)) := by
    rw [core_append_chunk u c hInv.2, hcore]
  constructor
  · rw [heq, parse_snd, hca, ← Core.runBytes_append]
  · rw [heq, parse_fst, core_parseSteps, hca, ← Core.runBytes_append]

theorem feed_aux (B' : List Nat) (F : Frame)
    (hstage : (Core.runBytes B').parse_stage = ParseStage.DONE)
    (hframe : (Core.runBytes B').frame = F)
    (hptr : (Core.runBytes B').ptr = B'.length) :
    ∀ (cs : List (List Nat)) (u : FrameParser) (p' : List Nat),
      cs ≠ [] → (∀ c ∈ cs, c ≠ []) →
      p' ++ (cs.flatten.map (· % 256)) = B' →
      Inv u → core u = Core.runBytes p' →
      (feedChunks u cs).2 = List.replicate (cs.length - 1) none ++ [some F] := by
  intro cs
  induction cs with
  | nil => exact fun u p' hne => absurd rfl hne
  | cons c rest ih =>
    intro u p' _ hall hflat hInv hcore
    have hc : c ≠ [] := hall c (by simp)
    have hflat2 : (p' ++ c.map (· % 256)) ++ (rest.flatten.map (· % 256)) = B' := by
      rw [← hflat, List.flatten_cons, List.map_append, List.append_assoc]
    have hnd : ¬ (Core.runBytes p').parse_stage = ParseStage.DONE := by
      apply Core.not_done_of_proper_prefix p'
        ((c :: rest).flatten.map (· % 256)) B' hflat ?_ hptr
      rw [Ne, List.map_eq_nil_iff, List.flatten_cons]
      simp [hc]
    have hfs := feed_step u p' c hInv hcore hnd hc
    rw [feedChunks_cons]
    by_cases hrest : rest = []
    · subst hrest
      have hPC : p' ++ c.map (· % 256) = B' := by
        simpa using hflat2
      rw [feedChunks_nil, hfs.1, hPC, if_pos hstage, hframe]
      rfl
    · have hnd2 : ¬ (Core.runBytes (p' ++ c.map (· % 256))).parse_stage
          = ParseStage.DONE := by
        apply Core.not_done_of_proper_prefix (p' ++ c.map (· % 256))
          (rest.flatten.map (· % 256)) B' hflat2 ?_ hptr
        rw [Ne, List.map_eq_nil_iff]
        cases rest with
        | nil => exact absurd rfl hrest
        | cons r0 rtl =>
          rw [List.flatten_cons]
          simp [hall r0 (by simp)]
      rw [hfs.1, if_neg hnd2,
          ih (u.update c).1 (p' ++ c.map (· % 256)) hrest
            (fun x hx => hall x (by simp [hx])) hflat2
            (inv_update u c hInv) hfs.2]
      cases rest with
      | nil => exact absurd rfl hrest
      | cons r0 rtl => simp [List.replicate_succ]

end FrameParser


theorem FrameFactory.construct_snd (fin : Bool) (opcode : Nat) (mask : Bool)
    (key : MaskKey) (payload : List Nat) (buf : FrameBuffer) :
    (FrameFactory.construct fin opcode mask key payload buf).2
      = (Frame.construct ⟨fin, mask, opcode, key, payload⟩ buf).contents := rfl

theorem FrameFactory.construct_fst (fin : Bool) (opcode : Nat) (mask : Bool)
    (key : MaskKey) (payload : List Nat) (buf : FrameBuffer) :
    (FrameFactory.construct fin opcode mask key payload buf).1
      = Frame.construct ⟨fin, mask, opcode, key, payload⟩ buf := rfl

namespace FrameParser

theorem Core.app_sz (c : Core) (e : List Nat) : (c.app e).sz = c.sz + e.length := rfl

theorem Core.app_payload_len (c : Core) (e : List Nat) :
    (c.app e).payload_len = c.payload_len := rfl

theorem Core.app_bs (c : Core) (e : List Nat) : (c.app e).bs = c.bs ++ e := rfl

theorem core_remaining (s : FrameParser) : s.remaining = (core s).sz - (core s).ptr := rfl

theorem Core.runBytes_bs (bs : List Nat) : (Core.runBytes bs).bs = bs :=
  (Core.steps_sz_bs (Core.ofBytes bs)).2

theorem Core.runBytes_frame_eq (bs : List Nat) :
    (Core.runBytes bs).frame = (Core.steps (Core.ofBytes bs)).frame := rfl

/-- When the chain is stuck waiting for payload bytes, it does nothing. -/
theorem Core.steps_stuck_payload_data (c : Core)
    (h1 : c.parse_stage = .PAYLOAD_DATA) (h2 : c.remaining < c.payload_len) :
    Core.steps c = c := by
  unfold Core.steps
  rw [Core.step_fin_bit_noop c (Or.inl (by simp [h1])),
      Core.step_opcode_noop c (Or.inl (by simp [h1])),
      Core.step_mask_bit_noop c (Or.inl (by simp [h1])),
      Core.step_payload_len_noop c (Or.inl (by simp [h1])),
      Core.step_ext_len_16_noop c (Or.inl (by simp [h1])),
      Core.step_ext_len_64_noop c (Or.inl (by simp [h1])),
      Core.step_masking_key_noop c (Or.inl (by simp [h1])),
      Core.step_payload_data_noop c (Or.inr h2)]

end FrameParser

/-! ## Claims -/

/-- C3: for a frame whose second wire byte carries base length 127, the
specification says the decoder uses the unsigned 64-bit big-endian integer
formed from the next 8 bytes. It does not: `m_payload_len |= consume() << 8 * i`
promotes the byte to a 32-bit `int`, so the shift counts 32..56 are undefined
behavior and the shift-by-24 term is sign-extended when converted to
`uint64_t`. On the extended-length bytes `00 00 00 00 80 00 00 01`
(big-endian value `0x80000001`) the decoder's `m_payload_len` becomes
`0xFFFFFFFF80000001`. The 16-bit path (base length 126) is correct, shown
here on the bytes `01 02`. -/
theorem claim_extended_length_decode_bug :
    (FrameParser.check_extended_payload_len_64
        { parse_stage := .EXTENDED_PAYLOAD_LEN_64, frame := Frame.default,
          frame_buffer := { data := [0, 0, 0, 0, 0x80, 0, 0, 1], ptr := 8 },
          payload_len := 0, ptr := 0 }).payload_len = 0xFFFFFFFF80000001
    ∧ beValue [0, 0, 0, 0, 0x80, 0, 0, 1] = 0x80000001
    ∧ (0xFFFFFFFF80000001 : Nat) ≠ beValue [0, 0, 0, 0, 0x80, 0, 0, 1]
    ∧ (FrameParser.check_extended_payload_len_16
        { parse_stage := .EXTENDED_PAYLOAD_LEN_16, frame := Frame.default,
          frame_buffer := { data := [0x01, 0x02], ptr := 2 },
          payload_len := 0, ptr := 0 }).payload_len = beValue [0x01, 0x02] := by
  refine ⟨?_, by decide, by decide, by decide⟩
  decide

/-- C4: `FrameFactory::ping`, `pong` and `close` fail with the
`PayloadTooLarge` error exactly when the payload exceeds 125 bytes; a failing
call happens before any buffer mutation, so the factory's buffer is
unchanged; and a payload of at most 125 bytes serializes without error. -/
theorem claim_control_payload_too_large (mask : Bool) (key : MaskKey)
    (payload : List Nat) (buf : FrameBuffer) :
    (((FrameFactory.ping mask key payload buf).2
        = Except.error "Payload should be <= 125 for ping frames")
      ↔ 125 < payload.length)
    ∧ (((FrameFactory.pong mask key payload buf).2
        = Except.error "Payload should be <= 125 for pong frames")
      ↔ 125 < payload.length)
    ∧ (((FrameFactory.close mask key payload buf).2
        = Except.error "Payload should be <= 125 for close frames")
      ↔ 125 < payload.length)
    ∧ (125 < payload.length →
        (FrameFactory.ping mask key payload buf).1 = buf
        ∧ (FrameFactory.pong mask key payload buf).1 = buf
        ∧ (FrameFactory.close mask key payload buf).1 = buf)
    ∧ (payload.length ≤ 125 →
        (∃ bytes, (FrameFactory.ping mask key payload buf).2 = Except.ok bytes)
        ∧ (∃ bytes, (FrameFactory.pong mask key payload buf).2 = Except.ok bytes)
        ∧ (∃ bytes, (FrameFactory.close mask key payload buf).2 = Except.ok bytes)) := by
  unfold FrameFactory.ping FrameFactory.pong FrameFactory.close
  by_cases h : 125 < payload.length
  · simp [h, Nat.not_le.mpr h]
  · simp [h]

theorem claim_control_payload_too_large_witness :
    (FrameFactory.ping false ⟨0, 0, 0, 0⟩ (List.replicate 126 0) (FrameBuffer.init 8)).2
      = Except.error "Payload should be <= 125 for ping frames"
    ∧ (FrameFactory.ping false ⟨0, 0, 0, 0⟩ (List.replicate 126 0) (FrameBuffer.init 8)).1
      = FrameBuffer.init 8
    ∧ (∃ bytes, (FrameFactory.close false ⟨0, 0, 0, 0⟩ [3, 232]
        (FrameBuffer.init 8)).2 = Except.ok bytes) := by
  have h1 := claim_control_payload_too_large false ⟨0, 0, 0, 0⟩
    (List.replicate 126 0) (FrameBuffer.init 8)
  have h2 := claim_control_payload_too_large false ⟨0, 0, 0, 0⟩
    [3, 232] (FrameBuffer.init 8)
  exact ⟨h1.1.mpr (by simp), (h1.2.2.2.1 (by simp)).1, (h2.2.2.2.2 (by simp)).2.2⟩

/-- C6, as claimed: when `ensure_fit` is asked for more than the current
capacity, the new capacity is the larger of twice the old capacity and the
request. False: `m_buf.resize(sz)` makes the capacity exactly `sz`. On a
buffer of capacity 4 asked to fit 5, the capacity becomes 5, not
`max (2*4) 5 = 8`. -/
theorem claim_growth_policy_counterexample :
    ((FrameBuffer.init 4).ensure_fit 5).capacity
      ≠ max (2 * (FrameBuffer.init 4).capacity) 5 := by
  decide

/-- C6, amended: `ensure_fit` grows the capacity to exactly the requested
size when the request exceeds the current capacity, and does nothing
otherwise. -/
theorem claim_growth_policy_amended (fb : FrameBuffer) (n : Nat) :
    (fb.capacity < n → (fb.ensure_fit n).capacity = n)
    ∧ (n ≤ fb.capacity → fb.ensure_fit n = fb) := by
  constructor
  · intro h
    unfold FrameBuffer.ensure_fit
    rw [if_pos h]
    unfold FrameBuffer.capacity at *
    simp only [List.length_append, List.length_replicate]
    omega
  · intro h
    unfold FrameBuffer.ensure_fit
    rw [if_neg (by omega)]

theorem claim_growth_policy_amended_witness :
    ((FrameBuffer.init 4).ensure_fit 5).capacity = 5
    ∧ (FrameBuffer.init 4).ensure_fit 3 = FrameBuffer.init 4 :=
  ⟨(claim_growth_policy_amended (FrameBuffer.init 4) 5).1 (by decide),
   (claim_growth_policy_amended (FrameBuffer.init 4) 3).2 (by decide)⟩

/-- C7: a text frame with `fin = true`, `mask = false` and the 11-byte
payload "Hello World" serializes to exactly `0x81 0x0B` followed by the 11
ASCII bytes: 13 bytes, no mask key, no extended length. The masking key
drawn by the factory is irrelevant (quantified) because the frame is
unmasked. -/
theorem claim_text_hello_world_encoding (key : MaskKey) :
    (FrameFactory.text true false key
        [72, 101, 108, 108, 111, 32, 87, 111, 114, 108, 100]
        (FrameBuffer.init 4096)).2
      = [0x81, 0x0B, 72, 101, 108, 108, 111, 32, 87, 111, 114, 108, 100] := by
  unfold FrameFactory.text
  rw [FrameFactory.construct_snd, (Frame.construct_spec _ _).1]
  simp [encodeBytes, rawEncode, lenFieldBytes]

/-- C9: `Frame::construct` reserves `payload.length + 114` bytes up front
and then writes exactly `1 + (1 | 3 | 9) + (4 if masked else 0) + length`
bytes, which is at most `length + 14`, so the write cursor ends within the
allocated storage (the writes are sequential from position 0, hence each
unchecked `push_back`/`get_space` write lands in bounds). -/
theorem claim_construct_bounds_safety (fr : Frame) (buf : FrameBuffer) :
    (fr.construct buf).ptr
      = 1 + (if fr.payload.length < 126 then 1
             else if fr.payload.length ≤ 0xFFFF then 3 else 9)
          + (if fr.mask then 4 else 0) + fr.payload.length
    ∧ (fr.construct buf).ptr ≤ fr.payload.length + 14
    ∧ fr.payload.length + 114 ≤ (fr.construct buf).capacity
    ∧ (fr.construct buf).ptr ≤ (fr.construct buf).capacity := by
  obtain ⟨hc, hp, hl⟩ := Frame.construct_spec fr buf
  have hlen := Frame.length_rawEncode fr
  have h1 : (fr.construct buf).ptr
      = 1 + (if fr.payload.length < 126 then 1
             else if fr.payload.length ≤ 0xFFFF then 3 else 9)
          + (if fr.mask then 4 else 0) + fr.payload.length := by
    rw [hp, hlen]
  have h2 : (fr.construct buf).ptr ≤ fr.payload.length + 14 := by
    rw [h1]
    split_ifs <;> omega
  have h3 : fr.payload.length + 114 ≤ (fr.construct buf).capacity := by
    unfold FrameBuffer.capacity
    rw [hl]
    omega
  refine ⟨h1, h2, h3, ?_⟩
  unfold FrameBuffer.capacity at *
  omega

/-- C10: every successful `ping`, `pong` or `close` serializes a frame whose
first wire byte has the FIN bit (`0x80`) set — these operations hard-code
`fin = true`, so no non-final control frame can be produced through them. -/
theorem claim_control_frames_final (mask : Bool) (key : MaskKey)
    (payload : List Nat) (buf : FrameBuffer) (h : payload.length ≤ 125) :
    ((FrameFactory.ping mask key payload buf).2
        = Except.ok (encodeBytes (Frame.mk true mask 0x9 key payload))
      ∧ (encodeBytes (Frame.mk true mask 0x9 key payload)).getD 0 0 &&& 0x80 = 0x80)
    ∧ ((FrameFactory.pong mask key payload buf).2
        = Except.ok (encodeBytes (Frame.mk true mask 0xA key payload))
      ∧ (encodeBytes (Frame.mk true mask 0xA key payload)).getD 0 0 &&& 0x80 = 0x80)
    ∧ ((FrameFactory.close mask key payload buf).2
        = Except.ok (encodeBytes (Frame.mk true mask 0x8 key payload))
      ∧ (encodeBytes (Frame.mk true mask 0x8 key payload)).getD 0 0 &&& 0x80 = 0x80) := by
  have hn : ¬ payload.length > 125 := by omega
  refine ⟨⟨?_, ?_⟩, ⟨?_, ?_⟩, ⟨?_, ?_⟩⟩
  · unfold FrameFactory.ping
    rw [if_neg hn]
    dsimp only
    rw [FrameFactory.construct_snd, (Frame.construct_spec _ _).1]
  · simp [encodeBytes, rawEncode]
    decide
  · unfold FrameFactory.pong
    rw [if_neg hn]
    dsimp only
    rw [FrameFactory.construct_snd, (Frame.construct_spec _ _).1]
  · simp [encodeBytes, rawEncode]
    decide
  · unfold FrameFactory.close
    rw [if_neg hn]
    dsimp only
    rw [FrameFactory.construct_snd, (Frame.construct_spec _ _).1]
  · simp [encodeBytes, rawEncode]
    decide

theorem claim_control_frames_final_witness :
    (FrameFactory.ping false ⟨0, 0, 0, 0⟩ [] (FrameBuffer.init 8)).2
      = Except.ok (encodeBytes (Frame.mk true false 0x9 ⟨0, 0, 0, 0⟩ []))
    ∧ (encodeBytes (Frame.mk true false 0x9 ⟨0, 0, 0, 0⟩ [])).getD 0 0 &&& 0x80 = 0x80 := by
  have h := claim_control_frames_final false ⟨0, 0, 0, 0⟩ [] (FrameBuffer.init 8)
    (by decide)
  exact ⟨h.1.1, h.1.2⟩


/-- C1: the round-trip property fails on this code. For the frame
`fin = true, opcode = TEXT, mask = false` with a payload of `2^31` bytes,
feeding the bytes produced by `FrameFactory` serialization to a fresh
`FrameParser` in a single `update` call does NOT yield a completed frame:
the 64-bit extended-length decode turns the big-endian bytes
`00 00 00 00 80 00 00 00` into `0xFFFFFFFF80000000` (integer-promotion bug,
see `shiftTermU64`), so the parser waits forever for more payload. -/
theorem encodeBytes_unmasked (fin : Bool) (op : Nat) (k : MaskKey) (p : List Nat) :
    encodeBytes (Frame.mk fin false op k p)
      = ((((if fin then 0x80 else 0) ||| (op &&& 0xF)) % 256)
          :: (lenFieldBytes 0 p.length).map (· % 256)) ++ p.map (· % 256) := by
  unfold encodeBytes rawEncode
  simp

theorem claim_roundtrip_broken_for_huge_payload :
    (FrameParser.update FrameParser.init
      (FrameFactory.construct true 0x1 false ⟨0, 0, 0, 0⟩
        (List.replicate 2147483648 72) (FrameBuffer.init 4096)).2).2 = none := by
  have henc : (FrameFactory.construct true 0x1 false ⟨0, 0, 0, 0⟩
      (List.replicate 2147483648 72) (FrameBuffer.init 4096)).2
      = [129, 127, 0, 0, 0, 0, 128, 0, 0, 0] ++ List.replicate 2147483648 72 := by
    rw [FrameFactory.construct_snd, (Frame.construct_spec _ _).1, encodeBytes_unmasked,
        List.length_replicate, List.map_replicate,
        show ((if true then 0x80 else 0) ||| ((0x1 : Nat) &&& 0xF)) % 256 = 129 from by
          decide,
        show (72 : Nat) % 256 = 72 from rfl,
        show (lenFieldBytes 0 2147483648).map (· % 256)
          = [127, 0, 0, 0, 0, 128, 0, 0, 0] from by decide]
  have hBne : ([129, 127, 0, 0, 0, 0, 128, 0, 0, 0]
      ++ List.replicate 2147483648 72 : List Nat) ≠ [] :=
    List.cons_ne_nil _ _
  have hmap : ([129, 127, 0, 0, 0, 0, 128, 0, 0, 0]
      ++ List.replicate 2147483648 72 : List Nat).map (· % 256)
      = [129, 127, 0, 0, 0, 0, 128, 0, 0, 0] ++ List.replicate 2147483648 72 := by
    rw [List.map_append, List.map_replicate]
    norm_num
  have hhdr1 : (FrameParser.Core.runBytes
      [129, 127, 0, 0, 0, 0, 128, 0, 0, 0]).parse_stage
        = ParseStage.PAYLOAD_DATA := by decide
  have hhdr2 : (FrameParser.Core.runBytes
      [129, 127, 0, 0, 0, 0, 128, 0, 0, 0]).payload_len = 0xFFFFFFFF80000000 := by
    decide
  have hhdr3 : (FrameParser.Core.runBytes
      [129, 127, 0, 0, 0, 0, 128, 0, 0, 0]).ptr = 10 := by decide
  have hRstage : ((FrameParser.Core.runBytes
      [129, 127, 0, 0, 0, 0, 128, 0, 0, 0]).app
        (List.replicate 2147483648 72)).parse_stage = ParseStage.PAYLOAD_DATA := by
    rw [FrameParser.Core.app_stage, hhdr1]
  have hstuck : FrameParser.Core.steps ((FrameParser.Core.runBytes
      [129, 127, 0, 0, 0, 0, 128, 0, 0, 0]).app (List.replicate 2147483648 72))
      = (FrameParser.Core.runBytes
          [129, 127, 0, 0, 0, 0, 128, 0, 0, 0]).app (List.replicate 2147483648 72) := by
    apply FrameParser.Core.steps_stuck_payload_data _ hRstage
    rw [FrameParser.Core.app_remaining, FrameParser.Core.app_payload_len, hhdr2,
        FrameParser.Core.runBytes_sz, hhdr3, List.length_replicate]
    decide
  have hcond : ¬ (FrameParser.Core.runBytes
      (([129, 127, 0, 0, 0, 0, 128, 0, 0, 0]
        ++ List.replicate 2147483648 72 : List Nat).map (· % 256))).parse_stage
      = ParseStage.DONE := by
    rw [hmap, FrameParser.Core.runBytes_append, hstuck, hRstage]
    decide
  rw [henc, FrameParser.update_init_snd _ hBne, if_neg hcond]

/-- C2: chunked delivery invariance. If a single `update` of the whole byte
sequence on a fresh parser completes a frame `F` and consumes the entire
buffer (the sequence is exactly one valid encoded frame), then feeding the
same bytes as any sequence of non-empty chunks through successive `update`
calls reports incomplete on every call but the last, and the last yields
exactly `F`. -/
theorem claim_chunked_delivery_invariance (B : List Nat) (cs : List (List Nat))
    (t : FrameParser) (F : Frame)
    (hsplit : cs.flatten = B) (hne : cs ≠ []) (hnonempty : ∀ c ∈ cs, c ≠ [])
    (hsingle : FrameParser.init.update B = (t, some F))
    (hconsumed : t.ptr = t.frame_buffer.size) :
    (FrameParser.feedChunks FrameParser.init cs).2
      = List.replicate (cs.length - 1) none ++ [some F] := by
  obtain ⟨hD, hF, hcore, hsize, hwfb, hB⟩ :=
    FrameParser.update_init_done_facts B t F hsingle
  have hptr : (FrameParser.Core.runBytes (B.map (· % 256))).ptr
      = (B.map (· % 256)).length := by
    have h1 : (FrameParser.Core.runBytes (B.map (· % 256))).ptr = t.ptr := by
      rw [← hcore, FrameParser.core_ptr]
    rw [h1, hconsumed, hsize, List.length_map]
  exact FrameParser.feed_aux (B.map (· % 256)) F hD hF hptr cs FrameParser.init []
    hne hnonempty (by rw [List.nil_append, hsplit]) FrameParser.inv_init
    (by rw [FrameParser.core_init, FrameParser.Core.runBytes_nil])

theorem claim_chunked_delivery_invariance_witness :
    (FrameParser.feedChunks FrameParser.init [[129], [1, 72]]).2
      = List.replicate 1 none ++ [some (Frame.mk true false 1 ⟨0, 0, 0, 0⟩ [72])] := by
  have hB : ([129, 1, 72] : List Nat) ≠ [] := by simp
  have hsnd : (FrameParser.init.update [129, 1, 72]).2
      = some (Frame.mk true false 1 ⟨0, 0, 0, 0⟩ [72]) := by
    rw [FrameParser.update_init_snd _ hB]
    decide
  have hsingle : FrameParser.init.update [129, 1, 72]
      = ((FrameParser.init.update [129, 1, 72]).1,
         some (Frame.mk true false 1 ⟨0, 0, 0, 0⟩ [72])) := by
    rw [← hsnd]
  have hcons : (FrameParser.init.update [129, 1, 72]).1.ptr
      = (FrameParser.init.update [129, 1, 72]).1.frame_buffer.size := by
    rw [← FrameParser.core_ptr, FrameParser.core_update_init_fst _ hB,
        FrameParser.update_init_fst _ hB, FrameParser.frame_buffer_parseSteps,
        FrameParser.append_init_size]
    decide
  exact claim_chunked_delivery_invariance [129, 1, 72] [[129], [1, 72]] _ _
    rfl (by simp) (by intro c hc; fin_cases hc <;> simp) hsingle hcons

/-- C5: leftover-bytes preservation. If `b1` fed alone to a fresh parser
yields a completed frame `F1` consuming exactly all of `b1`, and `b2` fed
alone to a fresh parser yields a completed frame `F2`, then a single `update`
with `b1 ++ b2` returns `F1`, and a following `update` with an empty chunk
returns `F2`, parsed from exactly the leftover bytes — none lost, none
duplicated. -/
theorem claim_leftover_bytes_preservation
    (b1 b2 : List Nat) (s1 s2 : FrameParser) (F1 F2 : Frame)
    (h1 : FrameParser.init.update b1 = (s1, some F1))
    (hp1 : s1.ptr = s1.frame_buffer.size)
    (h2 : FrameParser.init.update b2 = (s2, some F2)) :
    (FrameParser.init.update (b1 ++ b2)).2 = some F1
    ∧ ((FrameParser.init.update (b1 ++ b2)).1.update []).2 = some F2 := by
  obtain ⟨hd1, hf1, hc1, hsz1, hwf1, hB1⟩ :=
    FrameParser.update_init_done_facts b1 s1 F1 h1
  obtain ⟨hd2, hf2, hc2, hsz2, hwf2, hB2⟩ :=
    FrameParser.update_init_done_facts b2 s2 F2 h2
  have hptr1 : (FrameParser.Core.runBytes (b1.map (· % 256))).ptr
      = (b1.map (· % 256)).length := by
    have e1 : (FrameParser.Core.runBytes (b1.map (· % 256))).ptr = s1.ptr := by
      rw [← hc1, FrameParser.core_ptr]
    rw [e1, hp1, ← FrameParser.core_sz, hc1, FrameParser.Core.runBytes_sz]
  have hBne : b1 ++ b2 ≠ [] := by
    intro h0
    exact hB1 (List.append_eq_nil.mp h0).1
  have hRB : FrameParser.Core.runBytes ((b1 ++ b2).map (· % 256))
      = (FrameParser.Core.runBytes (b1.map (· % 256))).app (b2.map (· % 256)) := by
    rw [List.map_append]
    exact FrameParser.Core.runBytes_append_of_done _ _ hd1
  have hdone : (FrameParser.Core.runBytes ((b1 ++ b2).map (· % 256))).parse_stage
      = ParseStage.DONE := by
    rw [hRB, FrameParser.Core.app_stage]
    exact hd1
  have hfirst : (FrameParser.init.update (b1 ++ b2)).2 = some F1 := by
    rw [FrameParser.update_init_snd _ hBne, if_pos hdone, hRB,
        FrameParser.Core.app_frame, hf1]
  have hct : FrameParser.core (FrameParser.init.update (b1 ++ b2)).1
      = FrameParser.Core.runBytes ((b1 ++ b2).map (· % 256)) :=
    FrameParser.core_update_init_fst _ hBne
  have htD : (FrameParser.init.update (b1 ++ b2)).1.parse_stage
      = ParseStage.DONE := by
    rw [← FrameParser.core_stage, hct]
    exact hdone
  have htptr : (FrameParser.init.update (b1 ++ b2)).1.ptr = b1.length := by
    rw [← FrameParser.core_ptr, hct, hRB, FrameParser.Core.app_ptr, hptr1,
        List.length_map]
  have htsize : (FrameParser.init.update (b1 ++ b2)).1.frame_buffer.size
      = b1.length + b2.length := by
    rw [FrameParser.update_init_fst _ hBne, FrameParser.frame_buffer_parseSteps,
        FrameParser.append_init_size, List.length_append]
  have htwf : (FrameParser.init.update (b1 ++ b2)).1.frame_buffer.WF := by
    rw [FrameParser.update_init_fst _ hBne, FrameParser.frame_buffer_parseSteps]
    exact FrameBuffer.wf_push_back_view _ _
  have htle : (FrameParser.init.update (b1 ++ b2)).1.ptr
      ≤ (FrameParser.init.update (b1 ++ b2)).1.frame_buffer.size := by
    rw [htptr, htsize]
    exact Nat.le_add_right _ _
  have htbytes : (FrameParser.init.update (b1 ++ b2)).1.bytes
      = (b1 ++ b2).map (· % 256) := by
    rw [← FrameParser.core_bs, hct, FrameParser.Core.runBytes_bs]
  have hreset : FrameParser.core (FrameParser.init.update (b1 ++ b2)).1.reset
      = FrameParser.Core.ofBytes (b2.map (· % 256)) := by
    rw [FrameParser.core_reset _ htle htwf, htsize, htptr, htbytes,
        Nat.add_sub_cancel_left, List.map_append,
        show b1.length = (b1.map (· % 256)).length from by rw [List.length_map],
        List.drop_left, FrameParser.map_mod_mod,
        show b2.length = (b2.map (· % 256)).length from by rw [List.length_map]]
    rfl
  have hrem : (FrameParser.init.update (b1 ++ b2)).1.reset.remaining
      = (b2.map (· % 256)).length := by
    rw [FrameParser.core_remaining, hreset]
    rfl
  have hremne : ¬ (FrameParser.init.update (b1 ++ b2)).1.reset.remaining = 0 := by
    rw [hrem, List.length_map]
    intro h0
    exact hB2 (List.eq_nil_of_length_eq_zero h0)
  refine ⟨hfirst, ?_⟩
  rw [FrameParser.update_of_done_empty _ htD, if_neg hremne, FrameParser.parse_snd,
      hreset]
  show (if (FrameParser.Core.runBytes (b2.map (· % 256))).parse_stage
        = ParseStage.DONE
      then some (FrameParser.Core.runBytes (b2.map (· % 256))).frame else none)
    = some F2
  rw [if_pos hd2, hf2]

theorem claim_leftover_bytes_preservation_witness :
    (FrameParser.init.update ([129, 1, 72] ++ [138, 0])).2
        = some (Frame.mk true false 1 ⟨0, 0, 0, 0⟩ [72])
    ∧ ((FrameParser.init.update ([129, 1, 72] ++ [138, 0])).1.update []).2
        = some (Frame.mk true false 10 ⟨0, 0, 0, 0⟩ []) := by
  have hB1 : ([129, 1, 72] : List Nat) ≠ [] := by simp
  have hB2 : ([138, 0] : List Nat) ≠ [] := by simp
  have hsnd1 : (FrameParser.init.update [129, 1, 72]).2
      = some (Frame.mk true false 1 ⟨0, 0, 0, 0⟩ [72]) := by
    rw [FrameParser.update_init_snd _ hB1]
    decide
  have hsingle1 : FrameParser.init.update [129, 1, 72]
      = ((FrameParser.init.update [129, 1, 72]).1,
         some (Frame.mk true false 1 ⟨0, 0, 0, 0⟩ [72])) := by
    rw [← hsnd1]
  have hp1 : (FrameParser.init.update [129, 1, 72]).1.ptr
      = (FrameParser.init.update [129, 1, 72]).1.frame_buffer.size := by
    rw [← FrameParser.core_ptr, FrameParser.core_update_init_fst _ hB1,
        FrameParser.update_init_fst _ hB1, FrameParser.frame_buffer_parseSteps,
        FrameParser.append_init_size]
    decide
  have hsnd2 : (FrameParser.init.update [138, 0]).2
      = some (Frame.mk true false 10 ⟨0, 0, 0, 0⟩ []) := by
    rw [FrameParser.update_init_snd _ hB2]
    decide
  have hsingle2 : FrameParser.init.update [138, 0]
      = ((FrameParser.init.update [138, 0]).1,
         some (Frame.mk true false 10 ⟨0, 0, 0, 0⟩ [])) := by
    rw [← hsnd2]
  exact claim_leftover_bytes_preservation [129, 1, 72] [138, 0] _ _ _ _
    hsingle1 hp1 hsingle2

/-- C8: along every sequence of public parser operations (`update` with an
arbitrary chunk, empty ones included, and `clear`) starting from a fresh
`FrameParser`, the parse cursor `m_ptr` never exceeds the accumulator
buffer's write cursor. -/
theorem claim_parse_cursor_invariant (s : FrameParser) (h : FrameParser.Reach s) :
    s.ptr ≤ s.frame_buffer.size :=
  (FrameParser.inv_reach s h).1

theorem claim_parse_cursor_invariant_witness :
    ((FrameParser.update FrameParser.init [129]).1.ptr
      ≤ (FrameParser.update FrameParser.init [129]).1.frame_buffer.size)
    ∧ (FrameParser.clear (FrameParser.update FrameParser.init [129]).1).ptr
      ≤ (FrameParser.clear (FrameParser.update FrameParser.init [129]).1).frame_buffer.size :=
  ⟨claim_parse_cursor_invariant _ (FrameParser.Reach.update _ _ FrameParser.Reach.init),
   claim_parse_cursor_invariant _ (FrameParser.Reach.clear _
     (FrameParser.Reach.update _ _ FrameParser.Reach.init))⟩

end wsframe